import Mathlib

/-!
A shallow embedding of the Game-of-Life core found in `gamestate.py`
(classes `Grid` and `Cell`), together with proofs of the specified
properties of the state model and its update engine.

Conventions of the embedding:
* Python integers are `Nat` (all quantities involved are non-negative)
  except for user-facing indices, which are `Int` to capture Python's
  negative-index semantics, and the tick interval, which is `ℚ`
  (an exact idealisation of the Python float arithmetic involved).
* In-place mutation becomes explicit state passing: a method that
  mutates `self` becomes a function `Grid → Grid` (or `Cell → Cell`).
* A Qt signal emission becomes a `(value, alive_time)` pair appended to
  an explicit list of emitted notifications, in program order, for the
  operations whose notification behaviour is specified.
* A Python expression that raises becomes an `Option` result (`none`
  models the raised exception).
-/

/-- One cell of the grid (`class Cell`): a binary alive/dead `value`
(`self._value`) and the number of consecutive generations survived
(`self._alive_time`).  Both start at `0` in `Cell.__init__`. -/
structure Cell where
  value : Nat
  alive_time : Nat
deriving DecidableEq, Repr

namespace Cell

/-- Constructor `Cell.__init__`: a cell is created dead with zero alive time. -/
def new : Cell := { value := 0, alive_time := 0 }

/-- Getter `Cell.get_value`. -/
def get_value (c : Cell) : Nat := c.value

/-- Getter `Cell.get_time`. -/
def get_time (c : Cell) : Nat := c.alive_time

/-- Method `Cell.reset_time`: sets the alive time back to `0` (no signal). -/
def reset_time (c : Cell) : Cell := { c with alive_time := 0 }

/-- Method `Cell.set_time`: sets the alive time to an arbitrary value
(no signal; the caller is expected to call `toggle_value` afterwards). -/
def set_time (c : Cell) (v : Nat) : Cell := { c with alive_time := v }

/-- Method `Cell.toggle_value`: `self._value = 1 if self._value == 0 else 0`,
then `reset_time` when the new value is `0`. -/
def toggle_value (c : Cell) : Cell :=
  let v : Nat := if c.value = 0 then 1 else 0
  let c' : Cell := { c with value := v }
  if v = 0 then c'.reset_time else c'

/-- Method `Cell.increase_time`: increments the alive time by one. -/
def increase_time (c : Cell) : Cell :=
  { c with alive_time := c.alive_time + 1 }

/-- The payload `(value, alive_time)` carried by the `cell_changed`
signal when it is emitted after a mutation. -/
def changeSignal (c : Cell) : Nat × Nat := (c.value, c.alive_time)

/-- The body of the `Grid.reset` loop for a single cell: only a cell
whose value is `1` is toggled, other cells are left untouched. -/
def resetStepCell (c : Cell) : Cell :=
  if c.get_value = 1 then c.toggle_value else c

end Cell

/-- The state grid (`class Grid`): dimensions, the owned 2-D list of
cells, and the tick interval `self._sleep` (seconds, as an exact
rational). -/
structure Grid where
  rows : Nat
  cols : Nat
  cells : List (List Cell)
  sleep : ℚ
deriving DecidableEq

namespace Grid

/-- Constructor `Grid.__init__(rows, cols)`: builds a `rows × cols` array of fresh
dead cells and sets the default tick interval `self._sleep = 0.03`. -/
def new (rows cols : Nat) : Grid :=
  { rows := rows
    cols := cols
    cells := List.replicate rows (List.replicate cols Cell.new)
    sleep := 3 / 100 }

/-- Getter `Grid.get_dimensions`. -/
def get_dimensions (g : Grid) : Nat × Nat := (g.rows, g.cols)

/-- Reading `self._cells[row][col]` at non-negative in-range indices, as
done internally by `alive_neighbors`, `update_grid` and `reset`; the
default `Cell.new` is never reached on a well-formed grid at in-range
indices. -/
def cellAt (g : Grid) (row col : Nat) : Cell :=
  (g.cells.getD row []).getD col Cell.new

/-- Writing through `self._cells[row][col]` (calling a mutating `Cell`
method on that entry): the grid with `f` applied to the cell at
`(row, col)`. -/
def modifyCell (g : Grid) (row col : Nat) (f : Cell → Cell) : Grid :=
  { g with cells := g.cells.modify (fun r => r.modify f col) row }

/-- Well-formedness of the 2-D cell list: `self._cells` holds exactly
`rows` lists of exactly `cols` cells each.  `Grid.__init__` establishes
this and no operation breaks it. -/
def WF (g : Grid) : Prop :=
  g.cells.length = g.rows ∧ ∀ r ∈ g.cells, r.length = g.cols

instance (g : Grid) : Decidable g.WF := by
  unfold WF; infer_instance

/-- Method `Grid.alive_neighbors(row, col)`: sums the values of the up-to-8
Moore neighbours that exist, guarding each direction by the position of
`(row, col)` in the grid exactly as the source does. -/
def alive_neighbors (g : Grid) (row col : Nat) : Nat :=
  let count : Nat := 0
  let count : Nat :=
    if 0 < row then
      let count := count + (g.cellAt (row - 1) col).get_value
      let count :=
        if 0 < col then count + (g.cellAt (row - 1) (col - 1)).get_value
        else count
      if col < g.cols - 1 then count + (g.cellAt (row - 1) (col + 1)).get_value
      else count
    else count
  let count : Nat :=
    if row < g.rows - 1 then
      let count := count + (g.cellAt (row + 1) col).get_value
      let count :=
        if 0 < col then count + (g.cellAt (row + 1) (col - 1)).get_value
        else count
      if col < g.cols - 1 then count + (g.cellAt (row + 1) (col + 1)).get_value
      else count
    else count
  let count : Nat :=
    if 0 < col then count + (g.cellAt row (col - 1)).get_value else count
  if col < g.cols - 1 then count + (g.cellAt row (col + 1)).get_value else count

end Grid

/-- The `list_of_changes` dictionary built during the compute phase of
`Grid.update_grid`: the `birth`, `survival` and `death` buckets of
coordinates. -/
structure Changes where
  birth : List (Nat × Nat)
  survival : List (Nat × Nat)
  death : List (Nat × Nat)
deriving DecidableEq, Repr

namespace Grid

/-- One iteration of the compute-phase double loop of
`Grid.update_grid`: classify coordinate `rc` against the *current*
grid and append it to the matching bucket. -/
def recordChange (g : Grid) (acc : Changes) (rc : Nat × Nat) : Changes :=
  let cell_neighbors := g.alive_neighbors rc.1 rc.2
  if (g.cellAt rc.1 rc.2).get_value ≠ 0 then
    if cell_neighbors = 2 ∨ cell_neighbors = 3 then
      { acc with survival := acc.survival ++ [rc] }
    else
      { acc with death := acc.death ++ [rc] }
  else if (g.cellAt rc.1 rc.2).get_value = 0 ∧ cell_neighbors = 3 then
    { acc with birth := acc.birth ++ [rc] }
  else acc

/-- The compute phase of `Grid.update_grid`: the nested
`for row ... for col ...` loop filling `list_of_changes`.  It only
*reads* the grid. -/
def list_of_changes (g : Grid) : Changes :=
  (List.range g.rows).foldl
    (fun acc row =>
      (List.range g.cols).foldl (fun acc col => g.recordChange acc (row, col)) acc)
    { birth := [], survival := [], death := [] }

/-- Method `Grid.update_grid`: compute phase first (`list_of_changes`), then
the commit phase in the fixed order birth / survival / death, each
bucket applied by mutating the listed cells. -/
def update_grid (g : Grid) : Grid :=
  let changes := g.list_of_changes
  let g := changes.birth.foldl
    (fun h rc => h.modifyCell rc.1 rc.2 Cell.toggle_value) g
  let g := changes.survival.foldl
    (fun h rc => h.modifyCell rc.1 rc.2 Cell.increase_time) g
  changes.death.foldl
    (fun h rc => h.modifyCell rc.1 rc.2 (fun c => c.toggle_value.reset_time)) g

/-- Method `Grid.reset`: every cell holding value `1` is toggled (which resets
its alive time and emits one `cell_changed` signal); dead cells are left
untouched and emit nothing.  Returns the new grid together with the
signals emitted, in loop order.  (The source loop mutates each cell in
place based only on that cell's own value, so it is a per-cell map.) -/
def reset (g : Grid) : Grid × List (Nat × Nat) :=
  ({ g with cells := g.cells.map fun r => r.map Cell.resetStepCell },
   g.cells.foldl
     (fun acc r =>
       r.foldl
         (fun acc c =>
           acc ++ if c.get_value = 1 then [c.toggle_value.changeSignal] else [])
         acc)
     [])

/-- Getter `Grid.get_sleep`. -/
def get_sleep (g : Grid) : ℚ := g.sleep

/-- Python's `round` to the nearest integer, halves to the nearest even
integer (banker's rounding), on an exact rational. -/
def pyRound (q : ℚ) : ℤ :=
  if q - ⌊q⌋ < 1 / 2 then ⌊q⌋
  else if (1 : ℚ) / 2 < q - ⌊q⌋ then ⌊q⌋ + 1
  else if 2 ∣ ⌊q⌋ then ⌊q⌋ else ⌊q⌋ + 1

/-- Python's `round(q, 3)`: rounding to three decimal places. -/
def roundTo3 (q : ℚ) : ℚ := (pyRound (q * 1000) : ℚ) / 1000

/-- Method `Grid.set_sleep(fps)`: stores `round(1 / fps, 3)`.  The division
`1 / fps` raises `ZeroDivisionError` when `fps == 0`, before anything is
assigned, which the embedding models as `none`. -/
def set_sleep (g : Grid) (fps : Nat) : Option Grid :=
  if fps = 0 then none
  else some { g with sleep := roundTo3 (1 / (fps : ℚ)) }

/-- Python's `l[i]` on a list, with its negative-index semantics: a
negative index is shifted by `len(l)` once, and an index that is still
out of range raises `IndexError` (modelled as `none`). -/
def pyGetItem {α : Type} (l : List α) (i : Int) : Option α :=
  if 0 ≤ i then l[i.toNat]?
  else if 0 ≤ i + l.length then l[(i + l.length).toNat]? else none

/-- Method `Grid.get_cell(row, col)`: `self._cells[row][col]` with Python list
indexing on both levels. -/
def get_cell (g : Grid) (row col : Int) : Option Cell :=
  (pyGetItem g.cells row).bind fun r => pyGetItem r col

/-- Row-major list of the coordinates visited by the nested loops of
`update_grid` and `reset`. -/
def coordList (g : Grid) : List (Nat × Nat) :=
  (List.range g.rows).flatMap fun row => (List.range g.cols).map fun col => (row, col)

/-- The survival condition of the compute phase, as a predicate on a
coordinate: the cell is alive and sees 2 or 3 alive neighbours. -/
def survives (g : Grid) (rc : Nat × Nat) : Bool :=
  decide ((g.cellAt rc.1 rc.2).get_value ≠ 0 ∧
    (g.alive_neighbors rc.1 rc.2 = 2 ∨ g.alive_neighbors rc.1 rc.2 = 3))

/-- The death condition of the compute phase: the cell is alive and its
neighbour count is neither 2 nor 3. -/
def dies (g : Grid) (rc : Nat × Nat) : Bool :=
  decide ((g.cellAt rc.1 rc.2).get_value ≠ 0 ∧
    ¬(g.alive_neighbors rc.1 rc.2 = 2 ∨ g.alive_neighbors rc.1 rc.2 = 3))

/-- The birth condition of the compute phase: the cell is dead and sees
exactly 3 alive neighbours. -/
def isBorn (g : Grid) (rc : Nat × Nat) : Bool :=
  decide ((g.cellAt rc.1 rc.2).get_value = 0 ∧ g.alive_neighbors rc.1 rc.2 = 3)

/-- One commit-phase loop of `update_grid`: apply the cell mutation `f`
at every coordinate of the bucket, in order. -/
def commitFold (f : Cell → Cell) (coords : List (Nat × Nat)) (g : Grid) : Grid :=
  coords.foldl (fun h rc => h.modifyCell rc.1 rc.2 f) g

/-- The next state of a single cell, as a function of that cell's value
and its neighbour count in the *previous* generation: the classic
Game-of-Life rule together with the alive-time bookkeeping performed by
the commit phase. -/
def lifeStep (c : Cell) (n : Nat) : Cell :=
  if c.get_value ≠ 0 then
    if n = 2 ∨ n = 3 then c.increase_time
    else c.toggle_value.reset_time
  else if c.get_value = 0 ∧ n = 3 then c.toggle_value
  else c

/-- The eight Moore-neighbourhood offsets. -/
def mooreOffsets : List (Int × Int) :=
  [(-1, -1), (-1, 0), (-1, 1), (0, -1), (0, 1), (1, -1), (1, 0), (1, 1)]

/-- Specification-side neighbour count: the number of alive cells among
the in-bounds coordinates of the 8-connected Moore neighbourhood of
`(row, col)`; an out-of-bounds neighbour position simply does not exist
and contributes nothing (no wraparound). -/
def mooreCount (g : Grid) (row col : Nat) : Nat :=
  mooreOffsets.countP fun d =>
    decide (0 ≤ (row : Int) + d.1 ∧ (row : Int) + d.1 < g.rows ∧
      0 ≤ (col : Int) + d.2 ∧ (col : Int) + d.2 < g.cols ∧
      (g.cellAt ((row : Int) + d.1).toNat ((col : Int) + d.2).toNat).get_value = 1)

/-- The number of Moore-neighbourhood positions of `(row, col)` that
exist inside the grid bounds (alive or not). -/
def moorePositions (g : Grid) (row col : Nat) : Nat :=
  mooreOffsets.countP fun d =>
    decide (0 ≤ (row : Int) + d.1 ∧ (row : Int) + d.1 < g.rows ∧
      0 ≤ (col : Int) + d.2 ∧ (col : Int) + d.2 < g.cols)

/-- The per-cell state invariant maintained by the game: the value is
binary, and a dead cell has alive duration `0`. -/
def CellOk (c : Cell) : Prop :=
  c.get_value ≤ 1 ∧ (c.get_value = 0 → c.get_time = 0)

instance (c : Cell) : Decidable (CellOk c) := by
  unfold CellOk; infer_instance

/-- The whole-grid state invariant: a well-formed cell array in which
every position satisfies `CellOk`. -/
def GoodGrid (g : Grid) : Prop :=
  g.WF ∧ ∀ r c, CellOk (g.cellAt r c)

/-- One public mutating operation on the grid, with `increase_time`
used only under its stated precondition (the cell is currently alive)
and `set_time` used only as the documented restore pairing, i.e.
immediately followed by `toggle_value` on the same cell. -/
inductive Step : Grid → Grid → Prop where
  | update (g : Grid) : Step g g.update_grid
  | reset (g : Grid) : Step g (g.reset).1
  | toggle (g : Grid) (r c : Nat) :
      Step g (g.modifyCell r c Cell.toggle_value)
  | increase (g : Grid) (r c : Nat) (h : (g.cellAt r c).get_value = 1) :
      Step g (g.modifyCell r c Cell.increase_time)
  | restore (g : Grid) (r c v : Nat) :
      Step g ((g.modifyCell r c (fun cell => cell.set_time v)).modifyCell r c
        Cell.toggle_value)
  | resetDur (g : Grid) (r c : Nat) :
      Step g (g.modifyCell r c Cell.reset_time)

/-- The public mutating operations exactly as the duration-invariant
claim lists them: `set_time` may also be called on its own. -/
inductive StepFree : Grid → Grid → Prop where
  | lift {g g' : Grid} (h : Step g g') : StepFree g g'
  | setDur (g : Grid) (r c v : Nat) :
      StepFree g (g.modifyCell r c (fun cell => cell.set_time v))

/-- A fresh `rows × cols` grid whose only alive cells are the horizontal
blinker `(1,1), (1,2), (1,3)`, toggled through the public interface. -/
def blinkerGrid (rows cols : Nat) : Grid :=
  (((Grid.new rows cols).modifyCell 1 1 Cell.toggle_value).modifyCell 1 2
    Cell.toggle_value).modifyCell 1 3 Cell.toggle_value

/-- A 5×5 grid whose single alive cell is `(2, 2)`, toggled through the
public interface. -/
def singleAliveGrid : Grid := (Grid.new 5 5).modifyCell 2 2 Cell.toggle_value

/-- A 3×3 grid with alive cells `(0,0), (0,1), (1,0)`: cell `(0, 0)` is
alive with exactly 2 alive neighbours. -/
def survivalWitnessGrid : Grid :=
  (((Grid.new 3 3).modifyCell 0 0 Cell.toggle_value).modifyCell 0 1
    Cell.toggle_value).modifyCell 1 0 Cell.toggle_value

/-- A 2×2 grid with alive cells `(0,0), (0,1), (1,0)`, whose dead cell
`(1, 1)` has been given a non-zero duration through the public
`set_time`. -/
def birthCexGrid : Grid :=
  ((((Grid.new 2 2).modifyCell 0 0 Cell.toggle_value).modifyCell 0 1
    Cell.toggle_value).modifyCell 1 0 Cell.toggle_value).modifyCell 1 1
    fun cell => cell.set_time 5

/-- A 2×2 grid with alive cells `(0,0), (0,1), (1,0)`; the dead cell
`(1, 1)` has 3 alive neighbours and duration `0`. -/
def birthWitnessGrid : Grid :=
  (((Grid.new 2 2).modifyCell 0 0 Cell.toggle_value).modifyCell 0 1
    Cell.toggle_value).modifyCell 1 0 Cell.toggle_value

/-- A 1×1 grid whose single cell is alive (and so has 0 neighbours). -/
def deathWitnessGrid : Grid := (Grid.new 1 1).modifyCell 0 0 Cell.toggle_value

/-- A 1×1 grid whose dead cell was given duration 5 through the public
`set_time`. -/
def resetCexGrid : Grid :=
  (Grid.new 1 1).modifyCell 0 0 fun cell => cell.set_time 5

end Grid

/-! ## Theorems -/

namespace Gol

/-- An element of `l.modify f n` is an element of `l` or the image under
`f` of an element of `l`. -/
theorem mem_modify {α : Type} {x : α} {f : α → α} :
    ∀ {n : Nat} {l : List α}, x ∈ l.modify f n → x ∈ l ∨ ∃ a ∈ l, x = f a := by
  intro n l
  induction l generalizing n with
  | nil => intro h; rw [List.modify_nil] at h; exact absurd h (List.not_mem_nil x)
  | cons a l ih =>
    intro h
    cases n with
    | zero =>
      rw [List.modify_zero_cons] at h
      rcases List.mem_cons.mp h with h | h
      · exact Or.inr ⟨a, List.mem_cons_self a l, h⟩
      · exact Or.inl (List.mem_cons_of_mem a h)
    | succ n =>
      rw [List.modify_succ_cons] at h
      rcases List.mem_cons.mp h with h | h
      · exact Or.inl (h ▸ List.mem_cons_self a l)
      · rcases ih h with h | ⟨b, hb, hbx⟩
        · exact Or.inl (List.mem_cons_of_mem a h)
        · exact Or.inr ⟨b, List.mem_cons_of_mem a hb, hbx⟩

/-- Nested `foldl` over a rectangle of indices equals a single `foldl`
over the flattened index list. -/
theorem foldl_nested_eq {α β γ : Type} (outer : List α) (inner : α → List β)
    (step : γ → β → γ) (init : γ) :
    outer.foldl (fun acc a => (inner a).foldl step acc) init =
      (outer.flatMap inner).foldl step init := by
  induction outer generalizing init with
  | nil => rfl
  | cons a l ih => rw [List.foldl_cons, List.flatMap_cons, List.foldl_append, ih]

end Gol

namespace Grid

theorem new_WF (rows cols : Nat) : (Grid.new rows cols).WF := by
  refine ⟨List.length_replicate _ _, fun r hr => ?_⟩
  rw [List.eq_of_mem_replicate hr]
  exact List.length_replicate _ _

/-- The row list seen through `cellAt` has length `cols` at an in-range
row index of a well-formed grid. -/
theorem WF.rowLen {g : Grid} (hWF : g.WF) {row : Nat} (hr : row < g.rows) :
    (g.cells.getD row []).length = g.cols := by
  have hlen : row < g.cells.length := by rw [hWF.1]; exact hr
  rw [List.getD_eq_getElem?_getD, List.getElem?_eq_getElem hlen]
  exact hWF.2 _ (List.getElem_mem hlen)

/-- Out-of-range reads on a well-formed grid see the default dead cell. -/
theorem cellAt_oob {g : Grid} (hWF : g.WF) {row col : Nat}
    (h : g.rows ≤ row ∨ g.cols ≤ col) : g.cellAt row col = Cell.new := by
  by_cases hr : row < g.rows
  · have hlen : row < g.cells.length := by rw [hWF.1]; exact hr
    have hc : g.cols ≤ col := by rcases h with h | h <;> omega
    have hclen : g.cells[row].length ≤ col := by
      rw [hWF.2 _ (List.getElem_mem hlen)]; exact hc
    have hn : g.cells[row][col]? = none := List.getElem?_eq_none hclen
    simp [cellAt, List.getD_eq_getElem?_getD, List.getElem?_eq_getElem hlen, hn]
  · have hn : g.cells[row]? = none := List.getElem?_eq_none (by rw [hWF.1]; omega)
    simp [cellAt, List.getD_eq_getElem?_getD, hn]

theorem modifyCell_rows (g : Grid) (r c : Nat) (f : Cell → Cell) :
    (g.modifyCell r c f).rows = g.rows := rfl

theorem modifyCell_cols (g : Grid) (r c : Nat) (f : Cell → Cell) :
    (g.modifyCell r c f).cols = g.cols := rfl

theorem modifyCell_sleep (g : Grid) (r c : Nat) (f : Cell → Cell) :
    (g.modifyCell r c f).sleep = g.sleep := rfl

theorem WF.modifyCell {g : Grid} (hWF : g.WF) (r c : Nat) (f : Cell → Cell) :
    (g.modifyCell r c f).WF := by
  refine ⟨?_, fun x hx => ?_⟩
  · show (g.cells.modify _ r).length = g.rows
    rw [List.length_modify]; exact hWF.1
  · rcases Gol.mem_modify hx with hx | ⟨a, ha, rfl⟩
    · exact hWF.2 _ hx
    · show (a.modify f c).length = g.cols
      rw [List.length_modify]; exact hWF.2 _ ha

/-- Modifying one cell does not change any other position. -/
theorem cellAt_modifyCell_ne {g : Grid} {r c row col : Nat} {f : Cell → Cell}
    (h : ¬(r = row ∧ c = col)) :
    (g.modifyCell r c f).cellAt row col = g.cellAt row col := by
  by_cases hr : r = row
  · subst hr
    have hc : c ≠ col := fun hc => h ⟨rfl, hc⟩
    simp only [modifyCell, cellAt, List.getD_eq_getElem?_getD,
      List.getElem?_modify_eq]
    cases hcell : g.cells[r]? with
    | none => simp [hcell]
    | some R => simp [hcell, List.getElem?_modify_ne _ _ hc]
  · simp only [modifyCell, cellAt, List.getD_eq_getElem?_getD,
      List.getElem?_modify_ne _ _ hr]

/-- Modifying one in-range cell of a well-formed grid applies the
function exactly at that position. -/
theorem cellAt_modifyCell_self {g : Grid} {row col : Nat} {f : Cell → Cell}
    (hWF : g.WF) (hr : row < g.rows) (hc : col < g.cols) :
    (g.modifyCell row col f).cellAt row col = f (g.cellAt row col) := by
  have hlen : row < g.cells.length := by rw [hWF.1]; exact hr
  have hclen : col < g.cells[row].length := by
    rw [hWF.2 _ (List.getElem_mem hlen)]; exact hc
  simp [modifyCell, cellAt, List.getD_eq_getElem?_getD,
    List.getElem?_modify_eq, List.getElem?_eq_getElem hlen,
    List.getElem?_eq_getElem hclen]

theorem mem_coordList {g : Grid} {rc : Nat × Nat} :
    rc ∈ g.coordList ↔ rc.1 < g.rows ∧ rc.2 < g.cols := by
  cases rc with
  | mk row col =>
    simp only [coordList, List.mem_flatMap, List.mem_map, List.mem_range]
    constructor
    · rintro ⟨r, hr, c, hc, hrc⟩
      cases hrc
      exact ⟨hr, hc⟩
    · rintro ⟨hr, hc⟩
      exact ⟨row, hr, col, hc, rfl⟩

theorem nodup_coordList (g : Grid) : g.coordList.Nodup := by
  refine List.nodup_flatMap.mpr ⟨fun row _ => ?_, ?_⟩
  · have hinj : Function.Injective (fun col => ((row, col) : Nat × Nat)) := by
      intro a b hab
      simpa using congrArg Prod.snd hab
    exact (List.nodup_range _).map hinj
  · refine (List.nodup_range g.rows).imp ?_
    intro a b hab x hxa hxb
    rcases List.mem_map.mp hxa with ⟨c, _, rfl⟩
    rcases List.mem_map.mp hxb with ⟨c', _, hc'⟩
    have hfst : b = a := by simpa using congrArg Prod.fst hc'
    exact hab hfst.symm

theorem recordChange_eq (g : Grid) (acc : Changes) (rc : Nat × Nat) :
    g.recordChange acc rc =
      if g.survives rc then { acc with survival := acc.survival ++ [rc] }
      else if g.dies rc then { acc with death := acc.death ++ [rc] }
      else if g.isBorn rc then { acc with birth := acc.birth ++ [rc] }
      else acc := by
  by_cases h1 : (g.cellAt rc.1 rc.2).get_value = 0 <;>
    by_cases h2 : g.alive_neighbors rc.1 rc.2 = 2 <;>
      by_cases h3 : g.alive_neighbors rc.1 rc.2 = 3 <;>
        simp [recordChange, survives, dies, isBorn, h1, h2, h3]

theorem foldl_recordChange (g : Grid) (l : List (Nat × Nat)) (acc : Changes) :
    l.foldl g.recordChange acc =
      { birth := acc.birth ++ l.filter g.isBorn,
        survival := acc.survival ++ l.filter g.survives,
        death := acc.death ++ l.filter g.dies } := by
  induction l generalizing acc with
  | nil => simp
  | cons a l ih =>
    rw [List.foldl_cons, ih, recordChange_eq]
    by_cases h1 : g.survives a <;> by_cases h2 : g.dies a <;>
      by_cases h3 : g.isBorn a <;>
        simp_all [survives, dies, isBorn, List.filter_cons]

/-- The compute phase produces exactly the three condition-filtered
coordinate lists, in row-major order. -/
theorem list_of_changes_eq (g : Grid) :
    g.list_of_changes =
      { birth := g.coordList.filter g.isBorn,
        survival := g.coordList.filter g.survives,
        death := g.coordList.filter g.dies } := by
  have h1 : ∀ (acc : Changes) (row : Nat),
      (List.range g.cols).foldl (fun acc col => g.recordChange acc (row, col)) acc =
        ((List.range g.cols).map fun col => (row, col)).foldl g.recordChange acc :=
    fun acc row => (List.foldl_map _ _ _ _).symm
  unfold list_of_changes
  simp only [h1]
  rw [Gol.foldl_nested_eq, ← coordList, foldl_recordChange]
  simp

theorem commitFold_rows (f : Cell → Cell) (coords : List (Nat × Nat)) (g : Grid) :
    (commitFold f coords g).rows = g.rows := by
  induction coords generalizing g with
  | nil => rfl
  | cons a l ih => exact ih _

theorem commitFold_cols (f : Cell → Cell) (coords : List (Nat × Nat)) (g : Grid) :
    (commitFold f coords g).cols = g.cols := by
  induction coords generalizing g with
  | nil => rfl
  | cons a l ih => exact ih _

theorem commitFold_sleep (f : Cell → Cell) (coords : List (Nat × Nat)) (g : Grid) :
    (commitFold f coords g).sleep = g.sleep := by
  induction coords generalizing g with
  | nil => rfl
  | cons a l ih => exact ih _

theorem WF.commitFold {g : Grid} (hWF : g.WF) (f : Cell → Cell)
    (coords : List (Nat × Nat)) : (commitFold f coords g).WF := by
  induction coords generalizing g with
  | nil => exact hWF
  | cons a l ih => exact ih (hWF.modifyCell _ _ _)

/-- A commit loop leaves every coordinate outside its bucket unchanged. -/
theorem cellAt_commitFold_not_mem {f : Cell → Cell} {coords : List (Nat × Nat)}
    {g : Grid} {row col : Nat} (h : (row, col) ∉ coords) :
    (commitFold f coords g).cellAt row col = g.cellAt row col := by
  induction coords generalizing g with
  | nil => rfl
  | cons a l ih =>
    have ha : ¬(a.1 = row ∧ a.2 = col) := by
      rintro ⟨h1, h2⟩
      exact h (by simp [← h1, ← h2, List.mem_cons])
    rw [commitFold, List.foldl_cons, ← commitFold,
      ih (fun hm => h (List.mem_cons_of_mem a hm)), cellAt_modifyCell_ne ha]

/-- A commit loop over a duplicate-free bucket applies the mutation
exactly once at each coordinate of the bucket. -/
theorem cellAt_commitFold_mem {f : Cell → Cell} {coords : List (Nat × Nat)}
    {g : Grid} {row col : Nat} (hWF : g.WF) (hr : row < g.rows)
    (hc : col < g.cols) (hnd : coords.Nodup) (hmem : (row, col) ∈ coords) :
    (commitFold f coords g).cellAt row col = f (g.cellAt row col) := by
  induction coords generalizing g with
  | nil => exact absurd hmem (List.not_mem_nil _)
  | cons a l ih =>
    rw [commitFold, List.foldl_cons, ← commitFold]
    by_cases ha : a = (row, col)
    · have hnotmem : a ∉ l := (List.nodup_cons.mp hnd).1
      subst ha
      rw [cellAt_commitFold_not_mem hnotmem,
        cellAt_modifyCell_self hWF hr hc]
    · have hmem' : (row, col) ∈ l := by
        rcases List.mem_cons.mp hmem with h | h
        · exact absurd h.symm ha
        · exact h
      have hane : ¬(a.1 = row ∧ a.2 = col) := by
        rintro ⟨h1, h2⟩
        exact ha (by rw [← h1, ← h2])
      rw [ih (hWF.modifyCell _ _ _) hr hc (List.nodup_cons.mp hnd).2 hmem',
        cellAt_modifyCell_ne hane]

/-- Pointwise characterisation of `update_grid` on a well-formed grid:
the cell at any in-range coordinate after the call is `lifeStep` of the
cell before the call and its neighbour count before the call. -/
theorem cellAt_update_grid {g : Grid} {row col : Nat} (hWF : g.WF)
    (hr : row < g.rows) (hc : col < g.cols) :
    (g.update_grid).cellAt row col =
      lifeStep (g.cellAt row col) (g.alive_neighbors row col) := by
  have hmemc : (row, col) ∈ g.coordList := mem_coordList.mpr ⟨hr, hc⟩
  have hnd := nodup_coordList g
  have hWF1 : (commitFold Cell.toggle_value (g.coordList.filter g.isBorn) g).WF :=
    hWF.commitFold _ _
  have hWF2 : (commitFold Cell.increase_time (g.coordList.filter g.survives)
      (commitFold Cell.toggle_value (g.coordList.filter g.isBorn) g)).WF :=
    hWF1.commitFold _ _
  have hrows1 := commitFold_rows Cell.toggle_value (g.coordList.filter g.isBorn) g
  have hcols1 := commitFold_cols Cell.toggle_value (g.coordList.filter g.isBorn) g
  have hrows2 := commitFold_rows Cell.increase_time (g.coordList.filter g.survives)
    (commitFold Cell.toggle_value (g.coordList.filter g.isBorn) g)
  have hcols2 := commitFold_cols Cell.increase_time (g.coordList.filter g.survives)
    (commitFold Cell.toggle_value (g.coordList.filter g.isBorn) g)
  have hupd : g.update_grid =
      commitFold (fun c => c.toggle_value.reset_time) (g.coordList.filter g.dies)
        (commitFold Cell.increase_time (g.coordList.filter g.survives)
          (commitFold Cell.toggle_value (g.coordList.filter g.isBorn) g)) := by
    rw [update_grid, list_of_changes_eq]
    rfl
  rw [hupd]
  by_cases hv : (g.cellAt row col).get_value = 0
  · by_cases hn : g.alive_neighbors row col = 3
    · -- birth
      have hb : (row, col) ∈ g.coordList.filter g.isBorn :=
        List.mem_filter.mpr ⟨hmemc, by simp [isBorn, hv, hn]⟩
      have hs : (row, col) ∉ g.coordList.filter g.survives := by
        intro hin
        have := (List.mem_filter.mp hin).2
        simp [survives, hv] at this
      have hd : (row, col) ∉ g.coordList.filter g.dies := by
        intro hin
        have := (List.mem_filter.mp hin).2
        simp [dies, hv] at this
      rw [cellAt_commitFold_not_mem hd, cellAt_commitFold_not_mem hs,
        cellAt_commitFold_mem hWF hr hc (hnd.filter _) hb]
      simp [lifeStep, hv, hn]
    · -- untouched dead cell
      have hb : (row, col) ∉ g.coordList.filter g.isBorn := by
        intro hin
        have := (List.mem_filter.mp hin).2
        simp [isBorn, hv, hn] at this
      have hs : (row, col) ∉ g.coordList.filter g.survives := by
        intro hin
        have := (List.mem_filter.mp hin).2
        simp [survives, hv] at this
      have hd : (row, col) ∉ g.coordList.filter g.dies := by
        intro hin
        have := (List.mem_filter.mp hin).2
        simp [dies, hv] at this
      rw [cellAt_commitFold_not_mem hd, cellAt_commitFold_not_mem hs,
        cellAt_commitFold_not_mem hb]
      simp [lifeStep, hv, hn]
  · by_cases hn : g.alive_neighbors row col = 2 ∨ g.alive_neighbors row col = 3
    · -- survival
      have hb : (row, col) ∉ g.coordList.filter g.isBorn := by
        intro hin
        have := (List.mem_filter.mp hin).2
        simp [isBorn, hv] at this
      have hs : (row, col) ∈ g.coordList.filter g.survives :=
        List.mem_filter.mpr ⟨hmemc, by simp [survives, hv, hn]⟩
      have hd : (row, col) ∉ g.coordList.filter g.dies := by
        intro hin
        have := (List.mem_filter.mp hin).2
        simp [dies, hv, hn] at this
      rw [cellAt_commitFold_not_mem hd,
        cellAt_commitFold_mem hWF1 (hrows1 ▸ hr) (hcols1 ▸ hc) (hnd.filter _) hs,
        cellAt_commitFold_not_mem hb]
      simp [lifeStep, hv, hn]
    · -- death
      have hb : (row, col) ∉ g.coordList.filter g.isBorn := by
        intro hin
        have := (List.mem_filter.mp hin).2
        simp [isBorn, hv] at this
      have hs : (row, col) ∉ g.coordList.filter g.survives := by
        intro hin
        have := (List.mem_filter.mp hin).2
        simp [survives, hv, hn] at this
      have hd : (row, col) ∈ g.coordList.filter g.dies :=
        List.mem_filter.mpr ⟨hmemc, by simp [dies, hv, hn]⟩
      rw [cellAt_commitFold_mem hWF2 (hrows2 ▸ hrows1 ▸ hr)
          (hcols2 ▸ hcols1 ▸ hc) (hnd.filter _) hd,
        cellAt_commitFold_not_mem hs, cellAt_commitFold_not_mem hb]
      simp [lifeStep, hv, hn]

theorem update_grid_eq_commitFold (g : Grid) :
    g.update_grid =
      commitFold (fun c => c.toggle_value.reset_time) (g.coordList.filter g.dies)
        (commitFold Cell.increase_time (g.coordList.filter g.survives)
          (commitFold Cell.toggle_value (g.coordList.filter g.isBorn) g)) := by
  rw [update_grid, list_of_changes_eq]
  rfl

theorem update_grid_rows (g : Grid) : (g.update_grid).rows = g.rows := by
  rw [update_grid_eq_commitFold, commitFold_rows, commitFold_rows, commitFold_rows]

theorem update_grid_cols (g : Grid) : (g.update_grid).cols = g.cols := by
  rw [update_grid_eq_commitFold, commitFold_cols, commitFold_cols, commitFold_cols]

theorem WF.update_grid {g : Grid} (hWF : g.WF) : g.update_grid.WF := by
  rw [update_grid_eq_commitFold]
  exact ((hWF.commitFold _ _).commitFold _ _).commitFold _ _

theorem reset_rows (g : Grid) : (g.reset).1.rows = g.rows := rfl

theorem reset_cols (g : Grid) : (g.reset).1.cols = g.cols := rfl

theorem reset_sleep (g : Grid) : (g.reset).1.sleep = g.sleep := rfl

theorem WF.reset {g : Grid} (hWF : g.WF) : (g.reset).1.WF := by
  refine ⟨?_, fun r hr => ?_⟩
  · show (g.cells.map _).length = g.rows
    rw [List.length_map]; exact hWF.1
  · rcases List.mem_map.mp hr with ⟨R, hR, rfl⟩
    rw [List.length_map]
    exact hWF.2 _ hR

/-- A cell stored in the 2-D list is what `cellAt` reads at its indices. -/
theorem cellAt_of_getElem? {g : Grid} {row col : Nat} {R : List Cell} {c : Cell}
    (h1 : g.cells[row]? = some R) (h2 : R[col]? = some c) :
    g.cellAt row col = c := by
  simp [cellAt, List.getD_eq_getElem?_getD, h1, h2]

/-- Pointwise characterisation of the state part of `reset`: every
position holds `resetStepCell` of the cell that was there. -/
theorem cellAt_reset (g : Grid) (row col : Nat) :
    (g.reset).1.cellAt row col = Cell.resetStepCell (g.cellAt row col) := by
  have hmap : (g.reset).1.cells = g.cells.map fun r => r.map Cell.resetStepCell := rfl
  rw [cellAt, cellAt, hmap,
    List.getD_eq_getElem?_getD (g.cells.map _), List.getD_eq_getElem?_getD g.cells,
    List.getElem?_map]
  cases hrow : g.cells[row]? with
  | none => simp [Cell.resetStepCell, Cell.new, Cell.get_value]
  | some R =>
    show (R.map Cell.resetStepCell).getD col Cell.new =
      (R.getD col Cell.new).resetStepCell
    rw [List.getD_eq_getElem?_getD (R.map _), List.getD_eq_getElem?_getD R,
      List.getElem?_map]
    cases hcol : R[col]? with
    | none => simp [Cell.resetStepCell, Cell.new, Cell.get_value]
    | some c => simp

/-- On a binary-valued grid, the code-side `alive_neighbors` computes
exactly the specification-side Moore-neighbourhood count. -/
theorem alive_neighbors_eq_mooreCount {g : Grid} {row col : Nat}
    (hbin : ∀ r c, (g.cellAt r c).get_value ≤ 1)
    (hr : row < g.rows) (hc : col < g.cols) :
    g.alive_neighbors row col = mooreCount g row col := by
  have e1 : ((row : Int) + -1).toNat = row - 1 := by omega
  have e2 : ((row : Int) + 0).toNat = row := by omega
  have e3 : ((row : Int) + 1).toNat = row + 1 := by omega
  have f1 : ((col : Int) + -1).toNat = col - 1 := by omega
  have f2 : ((col : Int) + 0).toNat = col := by omega
  have f3 : ((col : Int) + 1).toNat = col + 1 := by omega
  have b1 : (0 ≤ (row : Int) + -1) ↔ 0 < row := by omega
  have b2 : ((row : Int) + -1 < g.rows) ↔ True := by
    constructor
    · intro; trivial
    · intro; omega
  have b3 : (0 ≤ (row : Int) + 0) ↔ True := by
    constructor
    · intro; trivial
    · intro; omega
  have b4 : ((row : Int) + 0 < g.rows) ↔ True := by
    constructor
    · intro; trivial
    · intro; omega
  have b5 : (0 ≤ (row : Int) + 1) ↔ True := by
    constructor
    · intro; trivial
    · intro; omega
  have b6 : ((row : Int) + 1 < g.rows) ↔ row < g.rows - 1 := by omega
  have c1 : (0 ≤ (col : Int) + -1) ↔ 0 < col := by omega
  have c2 : ((col : Int) + -1 < g.cols) ↔ True := by
    constructor
    · intro; trivial
    · intro; omega
  have c3 : (0 ≤ (col : Int) + 0) ↔ True := by
    constructor
    · intro; trivial
    · intro; omega
  have c4 : ((col : Int) + 0 < g.cols) ↔ True := by
    constructor
    · intro; trivial
    · intro; omega
  have c5 : (0 ≤ (col : Int) + 1) ↔ True := by
    constructor
    · intro; trivial
    · intro; omega
  have c6 : ((col : Int) + 1 < g.cols) ↔ col < g.cols - 1 := by omega
  have h1 := hbin (row - 1) (col - 1)
  have h2 := hbin (row - 1) col
  have h3 := hbin (row - 1) (col + 1)
  have h4 := hbin row (col - 1)
  have h5 := hbin row (col + 1)
  have h6 := hbin (row + 1) (col - 1)
  have h7 := hbin (row + 1) col
  have h8 := hbin (row + 1) (col + 1)
  unfold mooreCount mooreOffsets
  simp only [List.countP_cons, List.countP_nil, decide_eq_true_eq, e1, e2, e3,
    f1, f2, f3, b1, b2, b3, b4, b5, b6, c1, c2, c3, c4, c5, c6, true_and,
    and_true]
  have W1 : (if 0 < row ∧ 0 < col ∧ (g.cellAt (row - 1) (col - 1)).get_value = 1
      then 1 else 0) =
      if 0 < row ∧ 0 < col then (g.cellAt (row - 1) (col - 1)).get_value else 0 := by
    split_ifs <;> omega
  have W2 : (if 0 < row ∧ (g.cellAt (row - 1) col).get_value = 1 then 1 else 0) =
      if 0 < row then (g.cellAt (row - 1) col).get_value else 0 := by
    split_ifs <;> omega
  have W3 : (if 0 < row ∧ col < g.cols - 1 ∧
        (g.cellAt (row - 1) (col + 1)).get_value = 1 then 1 else 0) =
      if 0 < row ∧ col < g.cols - 1 then (g.cellAt (row - 1) (col + 1)).get_value
      else 0 := by
    split_ifs <;> omega
  have W4 : (if 0 < col ∧ (g.cellAt row (col - 1)).get_value = 1 then 1 else 0) =
      if 0 < col then (g.cellAt row (col - 1)).get_value else 0 := by
    split_ifs <;> omega
  have W5 : (if col < g.cols - 1 ∧ (g.cellAt row (col + 1)).get_value = 1
      then 1 else 0) =
      if col < g.cols - 1 then (g.cellAt row (col + 1)).get_value else 0 := by
    split_ifs <;> omega
  have W6 : (if row < g.rows - 1 ∧ 0 < col ∧
        (g.cellAt (row + 1) (col - 1)).get_value = 1 then 1 else 0) =
      if row < g.rows - 1 ∧ 0 < col then (g.cellAt (row + 1) (col - 1)).get_value
      else 0 := by
    split_ifs <;> omega
  have W7 : (if row < g.rows - 1 ∧ (g.cellAt (row + 1) col).get_value = 1
      then 1 else 0) =
      if row < g.rows - 1 then (g.cellAt (row + 1) col).get_value else 0 := by
    split_ifs <;> omega
  have W8 : (if row < g.rows - 1 ∧ col < g.cols - 1 ∧
        (g.cellAt (row + 1) (col + 1)).get_value = 1 then 1 else 0) =
      if row < g.rows - 1 ∧ col < g.cols - 1 then
        (g.cellAt (row + 1) (col + 1)).get_value else 0 := by
    split_ifs <;> omega
  simp only [W1, W2, W3, W4, W5, W6, W7, W8]
  by_cases a1 : 0 < row <;> by_cases a2 : 0 < col <;>
    by_cases a3 : col < g.cols - 1 <;> by_cases a4 : row < g.rows - 1 <;>
      simp [alive_neighbors, a1, a2, a3, a4] <;> omega

theorem mooreCount_le_eight (g : Grid) (row col : Nat) :
    mooreCount g row col ≤ 8 := List.countP_le_length _

/-- A grid all of whose in-range cells hold a binary value is binary at
every position (out-of-range reads see the dead default). -/
theorem binaryAll {g : Grid} (hWF : g.WF)
    (h : ∀ r, r < g.rows → ∀ c, c < g.cols → (g.cellAt r c).get_value ≤ 1) :
    ∀ r c, (g.cellAt r c).get_value ≤ 1 := by
  intro r c
  by_cases hr : r < g.rows
  · by_cases hc : c < g.cols
    · exact h r hr c hc
    · rw [cellAt_oob hWF (Or.inr (by omega))]; exact Nat.zero_le 1
  · rw [cellAt_oob hWF (Or.inl (by omega))]; exact Nat.zero_le 1

/-- Every position of a freshly constructed grid holds a fresh dead
cell. -/
theorem cellAt_new (rows cols r c : Nat) :
    (Grid.new rows cols).cellAt r c = Cell.new := by
  simp only [Grid.new, cellAt, List.getD_eq_getElem?_getD, List.getElem?_replicate]
  split_ifs with h1
  · simp only [Option.getD_some, List.getD_eq_getElem?_getD, List.getElem?_replicate]
    split_ifs <;> simp
  · simp

theorem modifyCell_cells_length (g : Grid) (r c : Nat) (f : Cell → Cell) :
    (g.modifyCell r c f).cells.length = g.cells.length := List.length_modify _ _ _

theorem modifyCell_rowLen (g : Grid) (r c row : Nat) (f : Cell → Cell) :
    ((g.modifyCell r c f).cells.getD row []).length =
      (g.cells.getD row []).length := by
  simp only [modifyCell, List.getD_eq_getElem?_getD, List.getElem?_modify]
  cases hrow : g.cells[row]? with
  | none => rfl
  | some R =>
    by_cases h : r = row <;> simp [h, List.length_modify]

/-- Deterministic description of a single-cell write: the written
position changes to `f` of its old value when the write lands in the
backing lists, every other position is untouched. -/
theorem cellAt_modifyCell_eq (g : Grid) (r c row col : Nat) (f : Cell → Cell) :
    (g.modifyCell r c f).cellAt row col =
      if r = row ∧ c = col ∧ row < g.cells.length ∧
          col < (g.cells.getD row []).length then
        f (g.cellAt row col)
      else g.cellAt row col := by
  split_ifs with h
  · obtain ⟨rfl, rfl, hr, hc⟩ := h
    have hrow : g.cells[r]? = some (g.cells.getD r []) := by
      rw [List.getD_eq_getElem?_getD, List.getElem?_eq_getElem hr]
      rfl
    have hcol : (g.cells.getD r [])[c]? =
        some ((g.cells.getD r []).getD c Cell.new) := by
      rw [List.getD_eq_getElem?_getD (g.cells.getD r []),
        List.getElem?_eq_getElem hc]
      rfl
    show ((g.cells.modify _ r).getD r []).getD c Cell.new = _
    rw [List.getD_eq_getElem?_getD (g.cells.modify _ r),
      List.getElem?_modify_eq, hrow]
    show ((g.cells.getD r []).modify f c).getD c Cell.new = _
    rw [List.getD_eq_getElem?_getD ((g.cells.getD r []).modify f c),
      List.getElem?_modify_eq, hcol]
    show f ((g.cells.getD r []).getD c Cell.new) = f (g.cellAt r c)
    rfl
  · by_cases hrc : r = row ∧ c = col
    · obtain ⟨rfl, rfl⟩ := hrc
      by_cases hr : r < g.cells.length
      · have hc : (g.cells.getD r []).length ≤ c := by
          by_contra hcon
          exact h ⟨rfl, rfl, hr, by omega⟩
        have hrow : g.cells[r]? = some (g.cells.getD r []) := by
          rw [List.getD_eq_getElem?_getD, List.getElem?_eq_getElem hr]
          rfl
        have hcol : (g.cells.getD r [])[c]? = none := List.getElem?_eq_none hc
        have hcol' : ((g.cells.getD r []).modify f c)[c]? = none := by
          rw [List.getElem?_modify_eq, hcol]
          rfl
        show ((g.cells.modify _ r).getD r []).getD c Cell.new = _
        rw [List.getD_eq_getElem?_getD (g.cells.modify _ r),
          List.getElem?_modify_eq, hrow]
        show ((g.cells.getD r []).modify f c).getD c Cell.new = _
        rw [List.getD_eq_getElem?_getD ((g.cells.getD r []).modify f c), hcol',
          cellAt, List.getD_eq_getElem?_getD (g.cells.getD r []), hcol]
      · have hrow : g.cells[r]? = none := List.getElem?_eq_none (by omega)
        have hrow' : (g.cells.modify (fun x => x.modify f c) r)[r]? = none := by
          rw [List.getElem?_modify_eq, hrow]
          rfl
        show ((g.cells.modify _ r).getD r []).getD c Cell.new = _
        rw [List.getD_eq_getElem?_getD (g.cells.modify _ r), hrow',
          cellAt, List.getD_eq_getElem?_getD g.cells, hrow]
    · exact cellAt_modifyCell_ne hrc

theorem cellOk_new : CellOk Cell.new := by decide

theorem cellOk_toggle (c : Cell) : CellOk c.toggle_value := by
  unfold CellOk Cell.toggle_value Cell.reset_time Cell.get_value Cell.get_time
  by_cases h : c.value = 0 <;> simp [h]

theorem cellOk_toggle_reset (c : Cell) : CellOk c.toggle_value.reset_time := by
  have := cellOk_toggle c
  unfold CellOk Cell.reset_time Cell.get_value Cell.get_time at *
  exact ⟨this.1, fun _ => rfl⟩

theorem cellOk_increase {c : Cell} (h : c.get_value = 1) :
    CellOk c.increase_time := by
  unfold CellOk Cell.increase_time Cell.get_value Cell.get_time at *
  simp [h]

theorem cellOk_reset_time {c : Cell} (h : CellOk c) : CellOk c.reset_time := by
  unfold CellOk Cell.reset_time Cell.get_value Cell.get_time at *
  exact ⟨h.1, fun _ => rfl⟩

theorem cellOk_resetStep {c : Cell} (h : CellOk c) : CellOk c.resetStepCell := by
  unfold Cell.resetStepCell
  by_cases hv : c.get_value = 1
  · simpa [hv] using cellOk_toggle c
  · simpa [hv] using h

theorem cellOk_lifeStep {c : Cell} (n : Nat) (h : CellOk c) :
    CellOk (lifeStep c n) := by
  unfold lifeStep
  by_cases hv : c.get_value ≠ 0 <;> by_cases hn : n = 2 ∨ n = 3 <;>
    by_cases hn3 : n = 3 <;>
      simp only [hv, hn, hn3, if_true, if_false, ite_true, ite_false, and_true,
        and_false, if_pos, not_true, not_false_iff] <;>
      first
        | exact cellOk_toggle c
        | exact cellOk_toggle_reset c
        | exact h
        | skip
  all_goals
    first
      | exact cellOk_increase (by omega)
      | (split_ifs <;>
          first
            | exact cellOk_increase (by have := h.1; unfold Cell.get_value at *; omega)
            | exact cellOk_toggle_reset c
            | exact cellOk_toggle c
            | exact h)

theorem goodGrid_new (rows cols : Nat) : GoodGrid (Grid.new rows cols) :=
  ⟨new_WF rows cols, fun r c => by rw [cellAt_new]; exact cellOk_new⟩

theorem goodGrid_update {g : Grid} (hg : GoodGrid g) :
    GoodGrid g.update_grid := by
  refine ⟨hg.1.update_grid, fun r c => ?_⟩
  by_cases hr : r < g.rows
  · by_cases hc : c < g.cols
    · rw [cellAt_update_grid hg.1 hr hc]
      exact cellOk_lifeStep _ (hg.2 r c)
    · rw [cellAt_oob hg.1.update_grid
        (by rw [update_grid_rows, update_grid_cols]; omega)]
      exact cellOk_new
  · rw [cellAt_oob hg.1.update_grid
      (by rw [update_grid_rows, update_grid_cols]; omega)]
    exact cellOk_new

theorem goodGrid_reset {g : Grid} (hg : GoodGrid g) : GoodGrid (g.reset).1 :=
  ⟨hg.1.reset, fun r c => by rw [cellAt_reset]; exact cellOk_resetStep (hg.2 r c)⟩

theorem goodGrid_modify {g : Grid} (hg : GoodGrid g) {r c : Nat}
    {f : Cell → Cell} (hf : CellOk (f (g.cellAt r c))) :
    GoodGrid (g.modifyCell r c f) := by
  refine ⟨hg.1.modifyCell r c f, fun row col => ?_⟩
  rw [cellAt_modifyCell_eq]
  split_ifs with h
  · obtain ⟨rfl, rfl, -, -⟩ := h
    exact hf
  · exact hg.2 row col

/-- Every public operation preserves the grid invariant. -/
theorem GoodGrid.step {g g' : Grid} (hg : GoodGrid g) (h : Step g g') :
    GoodGrid g' := by
  cases h with
  | update => exact goodGrid_update hg
  | reset => exact goodGrid_reset hg
  | toggle r c => exact goodGrid_modify hg (cellOk_toggle _)
  | increase r c hv => exact goodGrid_modify hg (cellOk_increase hv)
  | restore r c v =>
    refine ⟨(hg.1.modifyCell r c _).modifyCell r c _, fun row col => ?_⟩
    rw [cellAt_modifyCell_eq]
    split_ifs with h1
    · exact cellOk_toggle _
    · rw [cellAt_modifyCell_eq]
      split_ifs with h2
      · exfalso
        apply h1
        obtain ⟨rfl, rfl, hl, hrl⟩ := h2
        exact ⟨rfl, rfl, by rw [modifyCell_cells_length]; exact hl,
          by rw [modifyCell_rowLen]; exact hrl⟩
      · exact hg.2 row col
  | resetDur r c => exact goodGrid_modify hg (cellOk_reset_time (hg.2 r c))

/-- Grid states reachable from a freshly constructed grid through the
public operations satisfy the invariant. -/
theorem goodGrid_reach {rows cols : Nat} {g' : Grid}
    (h : Relation.ReflTransGen Step (Grid.new rows cols) g') : GoodGrid g' := by
  induction h with
  | refl => exact goodGrid_new rows cols
  | tail h1 h2 ih => exact ih.step h2

/-- Toggling an alive cell yields a dead cell with its duration reset. -/
theorem toggle_of_alive {c : Cell} (h : c.get_value ≠ 0) :
    c.toggle_value = { value := 0, alive_time := 0 } := by
  unfold Cell.toggle_value Cell.reset_time
  rw [Cell.get_value] at h
  simp [h]

/-- Toggling a dead cell yields an alive cell with its duration kept. -/
theorem toggle_of_dead {c : Cell} (h : c.get_value = 0) :
    c.toggle_value = { value := 1, alive_time := c.alive_time } := by
  unfold Cell.toggle_value Cell.reset_time
  rw [Cell.get_value] at h
  simp [h]

/-- On a grid of binary-valued cells, every cell is dead after `reset`. -/
theorem reset_value_zero {g : Grid}
    (hbin : ∀ r c, (g.cellAt r c).get_value ≤ 1) (r c : Nat) :
    ((g.reset).1.cellAt r c).get_value = 0 := by
  rw [cellAt_reset]
  unfold Cell.resetStepCell
  by_cases hv : (g.cellAt r c).get_value = 1
  · rw [if_pos hv, toggle_of_alive (by omega)]
    rfl
  · rw [if_neg hv]
    have := hbin r c
    rw [Cell.get_value] at *
    omega

/-- On a grid satisfying the cell invariant, every cell has duration `0`
after `reset`. -/
theorem reset_time_zero {g : Grid} (hok : ∀ r c, CellOk (g.cellAt r c))
    (r c : Nat) : ((g.reset).1.cellAt r c).get_time = 0 := by
  rw [cellAt_reset]
  unfold Cell.resetStepCell
  by_cases hv : (g.cellAt r c).get_value = 1
  · rw [if_pos hv, toggle_of_alive (by omega)]
    rfl
  · rw [if_neg hv]
    have h1 := (hok r c).1
    have h2 := (hok r c).2
    rw [Cell.get_value] at *
    exact h2 (by omega)

/-- The notification fold of `reset` over one all-dead row appends
nothing. -/
theorem rowNotif_nil :
    ∀ R : List Cell, (∀ c ∈ R, c.get_value ≠ 1) →
      ∀ acc : List (Nat × Nat),
        R.foldl (fun acc c =>
          acc ++ if c.get_value = 1 then [c.toggle_value.changeSignal] else []) acc
          = acc := by
  intro R
  induction R with
  | nil => intro _ acc; rfl
  | cons a l ih =>
    intro hR acc
    rw [List.foldl_cons, if_neg (hR a (List.mem_cons_self a l)), List.append_nil]
    exact ih (fun c hc => hR c (List.mem_cons_of_mem a hc)) acc

/-- Calling `reset` on a grid whose stored cells are all dead emits no
notification. -/
theorem reset_notif_nil {g : Grid}
    (hdead : ∀ R ∈ g.cells, ∀ c ∈ R, c.get_value ≠ 1) : (g.reset).2 = [] := by
  suffices h : ∀ L : List (List Cell), (∀ R ∈ L, ∀ c ∈ R, c.get_value ≠ 1) →
      ∀ acc : List (Nat × Nat),
        L.foldl (fun acc r => r.foldl (fun acc c =>
          acc ++ if c.get_value = 1 then [c.toggle_value.changeSignal] else []) acc)
          acc = acc by
    exact h g.cells hdead []
  intro L
  induction L with
  | nil => intro _ acc; rfl
  | cons R L ih =>
    intro hL acc
    rw [List.foldl_cons, rowNotif_nil R (hL R (List.mem_cons_self R L)) acc]
    exact ih (fun R' hR' => hL R' (List.mem_cons_of_mem R hR')) acc

/-- If every stored cell of the grid is dead, then `reset` changes no
cell state and emits no notification: it returns the grid unchanged. -/
theorem reset_of_dead {g : Grid}
    (hdead : ∀ R ∈ g.cells, ∀ c ∈ R, c.get_value ≠ 1) : g.reset = (g, []) := by
  have hcells : (g.cells.map fun R => R.map Cell.resetStepCell) = g.cells := by
    have h : ∀ R ∈ g.cells, (fun R => R.map Cell.resetStepCell) R = id R := by
      intro R hR
      have h' : ∀ c ∈ R, Cell.resetStepCell c = id c := by
        intro c hc
        simp [Cell.resetStepCell, hdead R hR c hc]
      show R.map Cell.resetStepCell = id R
      rw [List.map_congr_left h', List.map_id]
      rfl
    rw [List.map_congr_left h, List.map_id]
  have h1 : (g.reset).1 = g := by
    show { g with cells := g.cells.map fun R => R.map Cell.resetStepCell } = g
    rw [hcells]
  have h2 : (g.reset).2 = [] := reset_notif_nil hdead
  have hpair : g.reset = ((g.reset).1, (g.reset).2) := rfl
  rw [hpair, h1, h2]

/-- A well-formed grid that is all-dead through `cellAt` has only dead
cells stored in its lists. -/
theorem dead_members_of_cellAt {g : Grid}
    (h : ∀ r c, (g.cellAt r c).get_value = 0) :
    ∀ R ∈ g.cells, ∀ c ∈ R, c.get_value ≠ 1 := by
  intro R hR c hc
  obtain ⟨i, hi, hieq⟩ := List.mem_iff_getElem.mp hR
  obtain ⟨j, hj, hjeq⟩ := List.mem_iff_getElem.mp hc
  have h1 : g.cells[i]? = some R := by rw [List.getElem?_eq_getElem hi, hieq]
  have h2 : R[j]? = some c := by rw [List.getElem?_eq_getElem hj, hjeq]
  have := cellAt_of_getElem? h1 h2
  rw [← this, h i j]
  omega

theorem pyGetItem_nonneg {α : Type} (l : List α) (i : Int) (h : 0 ≤ i) :
    pyGetItem l i = l[i.toNat]? := if_pos h

theorem pyGetItem_neg {α : Type} (l : List α) (i : Int) (hneg : i < 0)
    (hin : 0 ≤ i + l.length) : pyGetItem l i = l[(i + l.length).toNat]? := by
  rw [pyGetItem, if_neg (by omega), if_pos hin]

/-- Python list indexing fails exactly on indices outside
`[-len(l), len(l))`. -/
theorem pyGetItem_eq_none_iff {α : Type} (l : List α) (i : Int) :
    pyGetItem l i = none ↔
      (i < -(l.length : Int) ∨ (l.length : Int) ≤ i) := by
  unfold pyGetItem
  split_ifs with h1 h2
  · rw [List.getElem?_eq_none_iff]
    omega
  · have hlt : (i + l.length).toNat < l.length := by omega
    rw [List.getElem?_eq_getElem hlt]
    constructor
    · intro h
      exact absurd h (by simp)
    · intro h
      omega
  · constructor
    · intro _
      omega
    · intro _
      rfl

/-- A successful Python list access returns a member of the list. -/
theorem pyGetItem_mem {α : Type} {l : List α} {i : Int} {x : α}
    (h : pyGetItem l i = some x) : x ∈ l := by
  unfold pyGetItem at h
  split_ifs at h
  · exact List.getElem?_mem h
  · exact List.getElem?_mem h

/-- Reading through `get_cell` at non-negative in-range indices returns the unique cell
stored at that coordinate. -/
theorem get_cell_in_bounds {g : Grid} (hWF : g.WF) {row col : Int}
    (hr0 : 0 ≤ row) (hr : row < (g.rows : Int)) (hc0 : 0 ≤ col)
    (hc : col < (g.cols : Int)) :
    g.get_cell row col = some (g.cellAt row.toNat col.toNat) := by
  unfold get_cell
  rw [pyGetItem_nonneg _ _ hr0]
  have hlen : row.toNat < g.cells.length := by rw [hWF.1]; omega
  rw [List.getElem?_eq_getElem hlen]
  show pyGetItem g.cells[row.toNat] col = _
  rw [pyGetItem_nonneg _ _ hc0]
  have hclen : col.toNat < g.cells[row.toNat].length := by
    rw [hWF.2 _ (List.getElem_mem hlen)]; omega
  rw [List.getElem?_eq_getElem hclen]
  have h1 : g.cells[row.toNat]? = some g.cells[row.toNat] :=
    List.getElem?_eq_getElem hlen
  have h2 : g.cells[row.toNat][col.toNat]? = some g.cells[row.toNat][col.toNat] :=
    List.getElem?_eq_getElem hclen
  rw [cellAt_of_getElem? h1 h2]

/-- Lookup through `get_cell` fails exactly when the row index is outside
`[-rows, rows)` or the column index is outside `[-cols, cols)`. -/
theorem get_cell_none_iff {g : Grid} (hWF : g.WF) (row col : Int) :
    g.get_cell row col = none ↔
      (row < -(g.rows : Int) ∨ (g.rows : Int) ≤ row ∨
        col < -(g.cols : Int) ∨ (g.cols : Int) ≤ col) := by
  unfold get_cell
  by_cases hrow : row < -(g.rows : Int) ∨ (g.rows : Int) ≤ row
  · have hnone : pyGetItem g.cells row = none := by
      rw [pyGetItem_eq_none_iff, hWF.1]
      exact hrow
    rw [hnone]
    constructor
    · intro _
      rcases hrow with h | h
      · exact Or.inl h
      · exact Or.inr (Or.inl h)
    · intro _
      rfl
  · obtain ⟨R, hR, hRlen⟩ :
        ∃ R, pyGetItem g.cells row = some R ∧ R.length = g.cols := by
      have hl := hWF.1
      by_cases h0 : 0 ≤ row
      · have hlen : row.toNat < g.cells.length := by omega
        refine ⟨g.cells[row.toNat], ?_, hWF.2 _ (List.getElem_mem hlen)⟩
        rw [pyGetItem_nonneg _ _ h0, List.getElem?_eq_getElem hlen]
      · have hlen : (row + g.cells.length).toNat < g.cells.length := by omega
        refine ⟨_, ?_, hWF.2 _ (List.getElem_mem hlen)⟩
        rw [pyGetItem_neg _ _ (by omega) (by omega),
          List.getElem?_eq_getElem hlen]
    rw [hR]
    show pyGetItem R col = none ↔ _
    rw [pyGetItem_eq_none_iff, hRlen]
    omega

/-- A negative in-range row index wraps Python-style: it denotes row
`row + rows`. -/
theorem get_cell_neg_row {g : Grid} (hWF : g.WF) (row col : Int)
    (h1 : -(g.rows : Int) ≤ row) (h2 : row < 0) :
    g.get_cell row col = g.get_cell (row + g.rows) col := by
  unfold get_cell
  have hl := hWF.1
  have e : (row + (g.cells.length : Int)).toNat = (row + g.rows).toNat := by
    omega
  rw [pyGetItem_neg g.cells row (by omega) (by omega),
    pyGetItem_nonneg g.cells _ (by omega), e]

/-- A negative in-range column index wraps Python-style: it denotes
column `col + cols`. -/
theorem get_cell_neg_col {g : Grid} (hWF : g.WF) (row col : Int)
    (h1 : -(g.cols : Int) ≤ col) (h2 : col < 0) :
    g.get_cell row col = g.get_cell row (col + g.cols) := by
  unfold get_cell
  cases hR : pyGetItem g.cells row with
  | none => rfl
  | some R =>
    show pyGetItem R col = pyGetItem R (col + g.cols)
    have hRlen : R.length = g.cols := hWF.2 _ (pyGetItem_mem hR)
    have e : (col + (R.length : Int)).toNat = (col + g.cols).toNat := by omega
    rw [pyGetItem_neg R col (by omega) (by omega),
      pyGetItem_nonneg R _ (by omega), e]

theorem blinkerGrid_WF (rows cols : Nat) : (blinkerGrid rows cols).WF :=
  (((new_WF rows cols).modifyCell _ _ _).modifyCell _ _ _).modifyCell _ _ _

theorem cellAt_blinkerGrid {rows cols : Nat} (hr5 : 5 ≤ rows) (hc5 : 5 ≤ cols)
    (x y : Nat) :
    (blinkerGrid rows cols).cellAt x y =
      if x = 1 ∧ (y = 1 ∨ y = 2 ∨ y = 3) then { value := 1, alive_time := 0 }
      else Cell.new := by
  have l0 : (Grid.new rows cols).cells.length = rows := by
    simp [Grid.new]
  have r0 : ∀ row, ((Grid.new rows cols).cells.getD row []).length =
      if row < rows then cols else 0 := by
    intro row
    simp only [Grid.new, List.getD_eq_getElem?_getD, List.getElem?_replicate]
    split_ifs <;> simp
  unfold blinkerGrid
  rw [cellAt_modifyCell_eq, cellAt_modifyCell_eq, cellAt_modifyCell_eq,
    modifyCell_cells_length, modifyCell_cells_length, l0,
    modifyCell_rowLen, modifyCell_rowLen, r0, cellAt_new]
  split_ifs <;> first | rfl | omega

set_option maxHeartbeats 1000000 in
theorem blinker_gen1 {rows cols : Nat} (hr5 : 5 ≤ rows) (hc5 : 5 ≤ cols)
    {r c : Nat} (hr : r < rows) (hc : c < cols) :
    (((blinkerGrid rows cols).update_grid).cellAt r c).get_value =
      if c = 2 ∧ (r = 0 ∨ r = 1 ∨ r = 2) then 1 else 0 := by
  have g1 : (0 < r ∧ 0 < c ∧ r - 1 = 1 ∧ (c - 1 = 1 ∨ c - 1 = 2 ∨ c - 1 = 3)) ↔
      (r = 2 ∧ 2 ≤ c ∧ c ≤ 4) := by
    constructor
    · rintro ⟨h1, h2, h3, h4 | h4 | h4⟩ <;> omega
    · rintro ⟨h1, h2, h3⟩
      omega
  have g2 : (0 < r ∧ r - 1 = 1 ∧ (c = 1 ∨ c = 2 ∨ c = 3)) ↔
      (r = 2 ∧ 1 ≤ c ∧ c ≤ 3) := by
    constructor
    · rintro ⟨h1, h2, h3 | h3 | h3⟩ <;> omega
    · rintro ⟨h1, h2, h3⟩
      omega
  have g3 : (0 < r ∧ c < cols - 1 ∧ r - 1 = 1 ∧
      (c + 1 = 1 ∨ c + 1 = 2 ∨ c + 1 = 3)) ↔ (r = 2 ∧ c ≤ 2) := by
    constructor
    · rintro ⟨h1, h2, h3, h4 | h4 | h4⟩ <;> omega
    · rintro ⟨h1, h2⟩
      omega
  have g4 : (0 < c ∧ r = 1 ∧ (c - 1 = 1 ∨ c - 1 = 2 ∨ c - 1 = 3)) ↔
      (r = 1 ∧ 2 ≤ c ∧ c ≤ 4) := by
    constructor
    · rintro ⟨h1, h2, h3 | h3 | h3⟩ <;> omega
    · rintro ⟨h1, h2, h3⟩
      omega
  have g5 : (c < cols - 1 ∧ r = 1 ∧ (c + 1 = 1 ∨ c + 1 = 2 ∨ c + 1 = 3)) ↔
      (r = 1 ∧ c ≤ 2) := by
    constructor
    · rintro ⟨h1, h2, h3 | h3 | h3⟩ <;> omega
    · rintro ⟨h1, h2⟩
      omega
  have g6 : (r < rows - 1 ∧ 0 < c ∧ r + 1 = 1 ∧
      (c - 1 = 1 ∨ c - 1 = 2 ∨ c - 1 = 3)) ↔ (r = 0 ∧ 2 ≤ c ∧ c ≤ 4) := by
    constructor
    · rintro ⟨h1, h2, h3, h4 | h4 | h4⟩ <;> omega
    · rintro ⟨h1, h2, h3⟩
      omega
  have g7 : (r < rows - 1 ∧ r + 1 = 1 ∧ (c = 1 ∨ c = 2 ∨ c = 3)) ↔
      (r = 0 ∧ 1 ≤ c ∧ c ≤ 3) := by
    constructor
    · rintro ⟨h1, h2, h3 | h3 | h3⟩ <;> omega
    · rintro ⟨h1, h2, h3⟩
      omega
  have g8 : (r < rows - 1 ∧ c < cols - 1 ∧ r + 1 = 1 ∧
      (c + 1 = 1 ∨ c + 1 = 2 ∨ c + 1 = 3)) ↔ (r = 0 ∧ c ≤ 2) := by
    constructor
    · rintro ⟨h1, h2, h3, h4 | h4 | h4⟩ <;> omega
    · rintro ⟨h1, h2⟩
      omega
  have hchar := cellAt_blinkerGrid hr5 hc5
  have hbin : ∀ x y, ((blinkerGrid rows cols).cellAt x y).get_value ≤ 1 := by
    intro x y
    rw [hchar x y]
    split_ifs <;> decide
  have hval : ∀ x y, (((blinkerGrid rows cols).cellAt x y).get_value = 1) ↔
      (x = 1 ∧ (y = 1 ∨ y = 2 ∨ y = 3)) := by
    intro x y
    rw [hchar x y]
    split_ifs with h <;> simp [Cell.get_value, Cell.new, h]
  have hfacts :
      (r = 1 ∧ c = 2 → mooreCount (blinkerGrid rows cols) r c = 2) ∧
      (c = 2 ∧ (r = 0 ∨ r = 2) → mooreCount (blinkerGrid rows cols) r c = 3) ∧
      (r = 1 ∧ (c = 1 ∨ c = 3) → mooreCount (blinkerGrid rows cols) r c = 1) ∧
      (¬(r = 1 ∧ (c = 1 ∨ c = 2 ∨ c = 3)) → ¬(c = 2 ∧ (r = 0 ∨ r = 2)) →
        mooreCount (blinkerGrid rows cols) r c ≠ 3) := by
    have e1 : ((r : Int) + -1).toNat = r - 1 := by omega
    have e2 : ((r : Int) + 0).toNat = r := by omega
    have e3 : ((r : Int) + 1).toNat = r + 1 := by omega
    have f1 : ((c : Int) + -1).toNat = c - 1 := by omega
    have f2 : ((c : Int) + 0).toNat = c := by omega
    have f3 : ((c : Int) + 1).toNat = c + 1 := by omega
    have hrows : (blinkerGrid rows cols).rows = rows := rfl
    have hcols : (blinkerGrid rows cols).cols = cols := rfl
    have b1 : (0 ≤ (r : Int) + -1) ↔ 0 < r := by omega
    have b2 : ((r : Int) + -1 < (rows : Int)) ↔ True :=
      ⟨fun _ => trivial, fun _ => by omega⟩
    have b3 : (0 ≤ (r : Int) + 0) ↔ True := ⟨fun _ => trivial, fun _ => by omega⟩
    have b4 : ((r : Int) + 0 < (rows : Int)) ↔ True :=
      ⟨fun _ => trivial, fun _ => by omega⟩
    have b5 : (0 ≤ (r : Int) + 1) ↔ True := ⟨fun _ => trivial, fun _ => by omega⟩
    have b6 : ((r : Int) + 1 < (rows : Int)) ↔ r < rows - 1 := by omega
    have c1 : (0 ≤ (c : Int) + -1) ↔ 0 < c := by omega
    have c2 : ((c : Int) + -1 < (cols : Int)) ↔ True :=
      ⟨fun _ => trivial, fun _ => by omega⟩
    have c3 : (0 ≤ (c : Int) + 0) ↔ True := ⟨fun _ => trivial, fun _ => by omega⟩
    have c4 : ((c : Int) + 0 < (cols : Int)) ↔ True :=
      ⟨fun _ => trivial, fun _ => by omega⟩
    have c5 : (0 ≤ (c : Int) + 1) ↔ True := ⟨fun _ => trivial, fun _ => by omega⟩
    have c6 : ((c : Int) + 1 < (cols : Int)) ↔ c < cols - 1 := by omega
    unfold mooreCount mooreOffsets
    simp only [List.countP_cons, List.countP_nil, decide_eq_true_eq,
      e1, e2, e3, f1, f2, f3, hrows, hcols, hval, b1, b2, b3, b4, b5, b6,
      c1, c2, c3, c4, c5, c6, true_and, and_true, g1, g2, g3, g4, g5, g6, g7, g8]
    clear hval hchar hbin e1 e2 e3 f1 f2 f3 hrows hcols
    clear b1 b2 b3 b4 b5 b6 c1 c2 c3 c4 c5 c6 g1 g2 g3 g4 g5 g6 g7 g8
    split_ifs <;> omega
  rw [cellAt_update_grid (blinkerGrid_WF rows cols) hr hc,
    alive_neighbors_eq_mooreCount hbin hr hc]
  by_cases hmem : r = 1 ∧ (c = 1 ∨ c = 2 ∨ c = 3)
  · rcases hmem with ⟨hr1, hc1 | hc2 | hc3⟩
    · rw [hchar r c, if_pos ⟨hr1, Or.inl hc1⟩, hfacts.2.2.1 ⟨hr1, Or.inl hc1⟩,
        if_neg (by omega)]
      decide
    · rw [hchar r c, if_pos ⟨hr1, Or.inr (Or.inl hc2)⟩, hfacts.1 ⟨hr1, hc2⟩,
        if_pos ⟨hc2, Or.inr (Or.inl hr1)⟩]
      decide
    · rw [hchar r c, if_pos ⟨hr1, Or.inr (Or.inr hc3)⟩,
        hfacts.2.2.1 ⟨hr1, Or.inr hc3⟩, if_neg (by omega)]
      decide
  · by_cases hspec : c = 2 ∧ (r = 0 ∨ r = 2)
    · have hrhs : c = 2 ∧ (r = 0 ∨ r = 1 ∨ r = 2) := by
        refine ⟨hspec.1, ?_⟩
        rcases hspec.2 with h | h
        · exact Or.inl h
        · exact Or.inr (Or.inr h)
      rw [hchar r c, if_neg hmem, hfacts.2.1 hspec, if_pos hrhs]
      decide
    · have hn := hfacts.2.2.2 hmem hspec
      rw [hchar r c, if_neg hmem, if_neg (by omega)]
      unfold lifeStep
      rw [if_neg (by decide), if_neg (by
        rintro ⟨-, h3⟩
        exact hn h3)]
      decide

set_option maxHeartbeats 1000000 in
theorem blinker_gen2 {rows cols : Nat} (hr5 : 5 ≤ rows) (hc5 : 5 ≤ cols)
    {r c : Nat} (hr : r < rows) (hc : c < cols) :
    (((blinkerGrid rows cols).update_grid.update_grid).cellAt r c).get_value =
      if r = 1 ∧ (c = 1 ∨ c = 2 ∨ c = 3) then 1 else 0 := by
  have hWF1 : ((blinkerGrid rows cols).update_grid).WF :=
    (blinkerGrid_WF rows cols).update_grid
  have hrows1 : ((blinkerGrid rows cols).update_grid).rows = rows :=
    update_grid_rows _
  have hcols1 : ((blinkerGrid rows cols).update_grid).cols = cols :=
    update_grid_cols _
  have hval1eq : ∀ x y,
      ((((blinkerGrid rows cols).update_grid).cellAt x y).get_value) =
        if y = 2 ∧ (x = 0 ∨ x = 1 ∨ x = 2) then 1 else 0 := by
    intro x y
    by_cases hx : x < rows
    · by_cases hy : y < cols
      · exact blinker_gen1 hr5 hc5 hx hy
      · rw [cellAt_oob hWF1 (by omega), if_neg (by omega)]
        rfl
    · rw [cellAt_oob hWF1 (by omega), if_neg (by omega)]
      rfl
  have g1 : (0 < r ∧ 0 < c ∧ c - 1 = 2 ∧ (r - 1 = 0 ∨ r - 1 = 1 ∨ r - 1 = 2)) ↔
      (c = 3 ∧ 1 ≤ r ∧ r ≤ 3) := by
    constructor
    · rintro ⟨h1, h2, h3, h4 | h4 | h4⟩ <;> omega
    · rintro ⟨h1, h2, h3⟩
      omega
  have g2 : (0 < r ∧ c = 2 ∧ (r - 1 = 0 ∨ r - 1 = 1 ∨ r - 1 = 2)) ↔
      (c = 2 ∧ 1 ≤ r ∧ r ≤ 3) := by
    constructor
    · rintro ⟨h1, h2, h3 | h3 | h3⟩ <;> omega
    · rintro ⟨h1, h2, h3⟩
      omega
  have g3 : (0 < r ∧ c < cols - 1 ∧ c + 1 = 2 ∧
      (r - 1 = 0 ∨ r - 1 = 1 ∨ r - 1 = 2)) ↔ (c = 1 ∧ 1 ≤ r ∧ r ≤ 3) := by
    constructor
    · rintro ⟨h1, h2, h3, h4 | h4 | h4⟩ <;> omega
    · rintro ⟨h1, h2, h3⟩
      omega
  have g4 : (0 < c ∧ c - 1 = 2 ∧ (r = 0 ∨ r = 1 ∨ r = 2)) ↔
      (c = 3 ∧ r ≤ 2) := by
    constructor
    · rintro ⟨h1, h2, h3 | h3 | h3⟩ <;> omega
    · rintro ⟨h1, h2⟩
      omega
  have g5 : (c < cols - 1 ∧ c + 1 = 2 ∧ (r = 0 ∨ r = 1 ∨ r = 2)) ↔
      (c = 1 ∧ r ≤ 2) := by
    constructor
    · rintro ⟨h1, h2, h3 | h3 | h3⟩ <;> omega
    · rintro ⟨h1, h2⟩
      omega
  have g6 : (r < rows - 1 ∧ 0 < c ∧ c - 1 = 2 ∧
      (r + 1 = 0 ∨ r + 1 = 1 ∨ r + 1 = 2)) ↔ (c = 3 ∧ r ≤ 1) := by
    constructor
    · rintro ⟨h1, h2, h3, h4 | h4 | h4⟩ <;> omega
    · rintro ⟨h1, h2⟩
      omega
  have g7 : (r < rows - 1 ∧ c = 2 ∧ (r + 1 = 0 ∨ r + 1 = 1 ∨ r + 1 = 2)) ↔
      (c = 2 ∧ r ≤ 1) := by
    constructor
    · rintro ⟨h1, h2, h3 | h3 | h3⟩ <;> omega
    · rintro ⟨h1, h2⟩
      omega
  have g8 : (r < rows - 1 ∧ c < cols - 1 ∧ c + 1 = 2 ∧
      (r + 1 = 0 ∨ r + 1 = 1 ∨ r + 1 = 2)) ↔ (c = 1 ∧ r ≤ 1) := by
    constructor
    · rintro ⟨h1, h2, h3, h4 | h4 | h4⟩ <;> omega
    · rintro ⟨h1, h2⟩
      omega
  have hbin1 : ∀ x y,
      ((((blinkerGrid rows cols).update_grid).cellAt x y).get_value) ≤ 1 := by
    intro x y
    rw [hval1eq x y]
    split_ifs <;> decide
  have hval1 : ∀ x y,
      (((((blinkerGrid rows cols).update_grid).cellAt x y).get_value) = 1) ↔
        (y = 2 ∧ (x = 0 ∨ x = 1 ∨ x = 2)) := by
    intro x y
    rw [hval1eq x y]
    split_ifs with h <;> simp [h]
  have hfacts :
      (r = 1 ∧ c = 2 →
        mooreCount ((blinkerGrid rows cols).update_grid) r c = 2) ∧
      (r = 1 ∧ (c = 1 ∨ c = 3) →
        mooreCount ((blinkerGrid rows cols).update_grid) r c = 3) ∧
      (c = 2 ∧ (r = 0 ∨ r = 2) →
        mooreCount ((blinkerGrid rows cols).update_grid) r c = 1) ∧
      (¬(c = 2 ∧ (r = 0 ∨ r = 1 ∨ r = 2)) → ¬(r = 1 ∧ (c = 1 ∨ c = 3)) →
        mooreCount ((blinkerGrid rows cols).update_grid) r c ≠ 3) := by
    have e1 : ((r : Int) + -1).toNat = r - 1 := by omega
    have e2 : ((r : Int) + 0).toNat = r := by omega
    have e3 : ((r : Int) + 1).toNat = r + 1 := by omega
    have f1 : ((c : Int) + -1).toNat = c - 1 := by omega
    have f2 : ((c : Int) + 0).toNat = c := by omega
    have f3 : ((c : Int) + 1).toNat = c + 1 := by omega
    have b1 : (0 ≤ (r : Int) + -1) ↔ 0 < r := by omega
    have b2 : ((r : Int) + -1 < (rows : Int)) ↔ True :=
      ⟨fun _ => trivial, fun _ => by omega⟩
    have b3 : (0 ≤ (r : Int) + 0) ↔ True := ⟨fun _ => trivial, fun _ => by omega⟩
    have b4 : ((r : Int) + 0 < (rows : Int)) ↔ True :=
      ⟨fun _ => trivial, fun _ => by omega⟩
    have b5 : (0 ≤ (r : Int) + 1) ↔ True := ⟨fun _ => trivial, fun _ => by omega⟩
    have b6 : ((r : Int) + 1 < (rows : Int)) ↔ r < rows - 1 := by omega
    have c1 : (0 ≤ (c : Int) + -1) ↔ 0 < c := by omega
    have c2 : ((c : Int) + -1 < (cols : Int)) ↔ True :=
      ⟨fun _ => trivial, fun _ => by omega⟩
    have c3 : (0 ≤ (c : Int) + 0) ↔ True := ⟨fun _ => trivial, fun _ => by omega⟩
    have c4 : ((c : Int) + 0 < (cols : Int)) ↔ True :=
      ⟨fun _ => trivial, fun _ => by omega⟩
    have c5 : (0 ≤ (c : Int) + 1) ↔ True := ⟨fun _ => trivial, fun _ => by omega⟩
    have c6 : ((c : Int) + 1 < (cols : Int)) ↔ c < cols - 1 := by omega
    unfold mooreCount mooreOffsets
    simp only [List.countP_cons, List.countP_nil, decide_eq_true_eq,
      e1, e2, e3, f1, f2, f3, hrows1, hcols1, hval1, b1, b2, b3, b4, b5, b6,
      c1, c2, c3, c4, c5, c6, true_and, and_true,
      g1, g2, g3, g4, g5, g6, g7, g8]
    clear hval1 hval1eq hbin1 e1 e2 e3 f1 f2 f3 hrows1 hcols1 hWF1
    clear b1 b2 b3 b4 b5 b6 c1 c2 c3 c4 c5 c6 g1 g2 g3 g4 g5 g6 g7 g8
    split_ifs <;> omega
  rw [cellAt_update_grid hWF1 (by omega) (by omega),
    alive_neighbors_eq_mooreCount hbin1 (by omega) (by omega)]
  have hinc : ∀ z : Cell, z.increase_time.get_value = z.get_value := fun z => rfl
  by_cases hmem : c = 2 ∧ (r = 0 ∨ r = 1 ∨ r = 2)
  · have hv : (((blinkerGrid rows cols).update_grid).cellAt r c).get_value = 1 := by
      rw [hval1eq r c, if_pos hmem]
    rcases hmem with ⟨hc2, hr0 | hr1 | hr2⟩
    · rw [hfacts.2.2.1 ⟨hc2, Or.inl hr0⟩]
      unfold lifeStep
      rw [if_pos (by omega), if_neg (by omega), toggle_of_alive (by omega)]
      rw [if_neg (by omega)]
      rfl
    · rw [hfacts.1 ⟨hr1, hc2⟩]
      unfold lifeStep
      rw [if_pos (by omega), if_pos (by omega), hinc, hv,
        if_pos ⟨hr1, Or.inr (Or.inl hc2)⟩]
    · rw [hfacts.2.2.1 ⟨hc2, Or.inr hr2⟩]
      unfold lifeStep
      rw [if_pos (by omega), if_neg (by omega), toggle_of_alive (by omega)]
      rw [if_neg (by omega)]
      rfl
  · have hv : (((blinkerGrid rows cols).update_grid).cellAt r c).get_value = 0 := by
      rw [hval1eq r c, if_neg hmem]
    by_cases hspec : r = 1 ∧ (c = 1 ∨ c = 3)
    · rw [hfacts.2.1 hspec]
      unfold lifeStep
      rw [if_neg (by omega), if_pos ⟨hv, rfl⟩, toggle_of_dead hv]
      have hrhs : r = 1 ∧ (c = 1 ∨ c = 2 ∨ c = 3) := by
        refine ⟨hspec.1, ?_⟩
        rcases hspec.2 with h | h
        · exact Or.inl h
        · exact Or.inr (Or.inr h)
      rw [if_pos hrhs]
      rfl
    · have hn := hfacts.2.2.2 hmem hspec
      unfold lifeStep
      rw [if_neg (by omega), if_neg (by
        rintro ⟨-, h3⟩
        exact hn h3), hv, if_neg (by omega)]

/-- C1: on any grid of at least 5×5 whose only alive cells are the
horizontal blinker `(1,1), (1,2), (1,3)`, one `update_grid` call yields
exactly the vertical alive set `{(0,2), (1,2), (2,2)}` and a second call
restores exactly `{(1,1), (1,2), (1,3)}`.  The two-phase ordering of the
claim is structural in the embedding: `update_grid` commits the buckets
of `list_of_changes`, which is a function of the pre-call grid alone, so
no compute-phase read can see a same-call commit. -/
theorem claim_blinker_oscillation (rows cols : Nat) (hrows : 5 ≤ rows)
    (hcols : 5 ≤ cols) :
    (∀ r c, ((blinkerGrid rows cols).cellAt r c).get_value = 1 ↔
      (r = 1 ∧ (c = 1 ∨ c = 2 ∨ c = 3))) ∧
    (∀ r c, r < rows → c < cols →
      ((((blinkerGrid rows cols).update_grid).cellAt r c).get_value = 1 ↔
        (c = 2 ∧ (r = 0 ∨ r = 1 ∨ r = 2)))) ∧
    (∀ r c, r < rows → c < cols →
      ((((blinkerGrid rows cols).update_grid.update_grid).cellAt r c).get_value
          = 1 ↔ (r = 1 ∧ (c = 1 ∨ c = 2 ∨ c = 3)))) := by
  refine ⟨fun r c => ?_, fun r c hr hc => ?_, fun r c hr hc => ?_⟩
  · rw [cellAt_blinkerGrid hrows hcols]
    split_ifs with h <;> simp [Cell.get_value, Cell.new, h]
  · rw [blinker_gen1 hrows hcols hr hc]
    split_ifs with h <;> simp [h]
  · rw [blinker_gen2 hrows hcols hr hc]
    split_ifs with h <;> simp [h]

theorem claim_blinker_oscillation_witness :
    (5 ≤ 5) ∧
    ((((blinkerGrid 5 5).update_grid).cellAt 0 2).get_value = 1 ↔
      ((2:Nat) = 2 ∧ ((0:Nat) = 0 ∨ (0:Nat) = 1 ∨ (0:Nat) = 2))) :=
  ⟨by decide,
    (claim_blinker_oscillation 5 5 (by decide) (by decide)).2.1 0 2 (by decide)
      (by decide)⟩

/-- C2: on any well-formed grid, an in-bounds alive cell with 2 or 3
alive neighbours before `update_grid` is still alive afterwards and its
alive duration has grown by exactly 1. -/
theorem claim_survival_rule (g : Grid) (row col : Nat) (hWF : g.WF)
    (hr : row < g.rows) (hc : col < g.cols)
    (halive : (g.cellAt row col).get_value = 1)
    (hn : g.alive_neighbors row col = 2 ∨ g.alive_neighbors row col = 3) :
    ((g.update_grid).cellAt row col).get_value = 1 ∧
    ((g.update_grid).cellAt row col).get_time =
      (g.cellAt row col).get_time + 1 := by
  rw [cellAt_update_grid hWF hr hc]
  unfold lifeStep
  rw [if_pos (show (g.cellAt row col).get_value ≠ 0 by omega), if_pos hn]
  unfold Cell.increase_time Cell.get_value Cell.get_time at *
  exact ⟨halive, rfl⟩

theorem claim_survival_rule_witness :
    survivalWitnessGrid.WF ∧
    (survivalWitnessGrid.cellAt 0 0).get_value = 1 ∧
    survivalWitnessGrid.alive_neighbors 0 0 = 2 ∧
    (((survivalWitnessGrid.update_grid).cellAt 0 0).get_value = 1 ∧
      ((survivalWitnessGrid.update_grid).cellAt 0 0).get_time =
        (survivalWitnessGrid.cellAt 0 0).get_time + 1) :=
  ⟨by decide, by decide, by decide,
    claim_survival_rule survivalWitnessGrid 0 0 (by decide) (by decide)
      (by decide) (by decide) (Or.inl (by decide))⟩

/-- C3 counterexample: the claim fails as stated.  On a 2×2 grid whose
dead cell `(1,1)` received duration 5 through the public `set_time`
(without the documented follow-up toggle), that cell has exactly 3 alive
neighbours, yet after `update_grid` its duration is 5, not 0: the birth
toggle keeps the stale duration. -/
theorem claim_birth_rule_cex :
    (birthCexGrid.cellAt 1 1).get_value = 0 ∧
    birthCexGrid.alive_neighbors 1 1 = 3 ∧
    ((birthCexGrid.update_grid).cellAt 1 1).get_value = 1 ∧
    ((birthCexGrid.update_grid).cellAt 1 1).get_time ≠ 0 := by
  refine ⟨by decide, by decide, by decide, by decide⟩

/-- C3 amended: for an in-bounds dead cell whose alive duration is 0 (as
the duration invariant guarantees for every state reachable without a
bare `set_time`) and that has exactly 3 alive neighbours, after
`update_grid` the cell is alive with duration 0. -/
theorem claim_birth_rule (g : Grid) (row col : Nat) (hWF : g.WF)
    (hr : row < g.rows) (hc : col < g.cols)
    (hdead : (g.cellAt row col).get_value = 0)
    (htime : (g.cellAt row col).get_time = 0)
    (hn : g.alive_neighbors row col = 3) :
    ((g.update_grid).cellAt row col).get_value = 1 ∧
    ((g.update_grid).cellAt row col).get_time = 0 := by
  rw [cellAt_update_grid hWF hr hc]
  unfold lifeStep
  rw [if_neg (by omega), if_pos ⟨hdead, hn⟩, toggle_of_dead hdead]
  unfold Cell.get_time at htime
  exact ⟨rfl, htime⟩

theorem claim_birth_rule_witness :
    birthWitnessGrid.WF ∧
    (birthWitnessGrid.cellAt 1 1).get_value = 0 ∧
    (birthWitnessGrid.cellAt 1 1).get_time = 0 ∧
    birthWitnessGrid.alive_neighbors 1 1 = 3 ∧
    (((birthWitnessGrid.update_grid).cellAt 1 1).get_value = 1 ∧
      ((birthWitnessGrid.update_grid).cellAt 1 1).get_time = 0) :=
  ⟨by decide, by decide, by decide, by decide,
    claim_birth_rule birthWitnessGrid 1 1 (by decide) (by decide) (by decide)
      (by decide) (by decide) (by decide)⟩

/-- C4: on any well-formed grid, an in-bounds alive cell whose neighbour
count is neither 2 nor 3 is dead with duration 0 after `update_grid`. -/
theorem claim_death_rule (g : Grid) (row col : Nat) (hWF : g.WF)
    (hr : row < g.rows) (hc : col < g.cols)
    (halive : (g.cellAt row col).get_value = 1)
    (hn : ¬(g.alive_neighbors row col = 2 ∨ g.alive_neighbors row col = 3)) :
    ((g.update_grid).cellAt row col).get_value = 0 ∧
    ((g.update_grid).cellAt row col).get_time = 0 := by
  rw [cellAt_update_grid hWF hr hc]
  unfold lifeStep
  rw [if_pos (show (g.cellAt row col).get_value ≠ 0 by omega), if_neg hn,
    toggle_of_alive (by omega)]
  exact ⟨rfl, rfl⟩

theorem claim_death_rule_witness :
    deathWitnessGrid.WF ∧
    (deathWitnessGrid.cellAt 0 0).get_value = 1 ∧
    ¬(deathWitnessGrid.alive_neighbors 0 0 = 2 ∨
      deathWitnessGrid.alive_neighbors 0 0 = 3) ∧
    (((deathWitnessGrid.update_grid).cellAt 0 0).get_value = 0 ∧
      ((deathWitnessGrid.update_grid).cellAt 0 0).get_time = 0) :=
  ⟨by decide, by decide, by decide,
    claim_death_rule deathWitnessGrid 0 0 (by decide) (by decide) (by decide)
      (by decide) (by decide)⟩

/-- C5: on any binary-valued grid, `alive_neighbors` at an in-bounds
coordinate returns exactly the number of alive cells among the in-bounds
Moore-neighbourhood positions (no wraparound), a value in `[0, 8]`; on
the 5×5 grid whose single alive cell is `(2,2)` each of its 8 neighbours
reports exactly 1, and corner `(0,0)` has exactly 3 in-bounds neighbour
positions.  In the embedding `alive_neighbors` is a pure function of the
grid, so it mutates nothing. -/
theorem claim_alive_neighbors (g : Grid) (row col : Nat)
    (hbin : ∀ r c, (g.cellAt r c).get_value ≤ 1)
    (hr : row < g.rows) (hc : col < g.cols) :
    g.alive_neighbors row col = mooreCount g row col ∧
    g.alive_neighbors row col ≤ 8 ∧
    (∀ d ∈ mooreOffsets,
      singleAliveGrid.alive_neighbors ((2 + d.1).toNat) ((2 + d.2).toNat) = 1) ∧
    moorePositions singleAliveGrid 0 0 = 3 := by
  have heq := alive_neighbors_eq_mooreCount hbin hr hc
  refine ⟨heq, ?_, by decide, by decide⟩
  rw [heq]
  exact mooreCount_le_eight g row col

theorem claim_alive_neighbors_witness :
    singleAliveGrid.alive_neighbors 1 1 = mooreCount singleAliveGrid 1 1 ∧
    singleAliveGrid.alive_neighbors 1 1 ≤ 8 :=
  ⟨(claim_alive_neighbors singleAliveGrid 1 1
      (binaryAll (by decide) (by decide)) (by decide) (by decide)).1,
    (claim_alive_neighbors singleAliveGrid 1 1
      (binaryAll (by decide) (by decide)) (by decide) (by decide)).2.1⟩

/-- C6 counterexample: the claim fails as stated.  `set_time` is a
public operation with no stated precondition, and one bare call on the
dead cell of a fresh 1×1 grid leaves that cell dead with duration 1,
violating `value == 0 → alive_duration == 0`. -/
theorem claim_duration_invariant_cex :
    Relation.ReflTransGen StepFree (Grid.new 1 1)
      ((Grid.new 1 1).modifyCell 0 0 fun cell => cell.set_time 1) ∧
    (((Grid.new 1 1).modifyCell 0 0
      fun cell => cell.set_time 1).cellAt 0 0).get_value = 0 ∧
    (((Grid.new 1 1).modifyCell 0 0
      fun cell => cell.set_time 1).cellAt 0 0).get_time = 1 :=
  ⟨Relation.ReflTransGen.single (StepFree.setDur (Grid.new 1 1) 0 0 1),
    by decide, by decide⟩

/-- C6 amended: from a freshly constructed grid, after any sequence of
the public operations `update_grid`, `reset`, `toggle_value`,
`increase_time` (used per its precondition, on an alive cell), `set_time`
used as the documented restore pairing (immediately followed by
`toggle_value` on the same cell), and `reset_time`, every cell satisfies
`value == 0 → alive_duration == 0`. -/
theorem claim_duration_invariant (rows cols : Nat) (g' : Grid)
    (h : Relation.ReflTransGen Step (Grid.new rows cols) g') (r c : Nat)
    (hdead : (g'.cellAt r c).get_value = 0) : (g'.cellAt r c).get_time = 0 :=
  ((goodGrid_reach h).2 r c).2 hdead

theorem claim_duration_invariant_witness :
    ((((Grid.new 1 1).modifyCell 0 0 Cell.reset_time).cellAt 0 0).get_value
      = 0) ∧
    ((((Grid.new 1 1).modifyCell 0 0 Cell.reset_time).cellAt 0 0).get_time
      = 0) :=
  ⟨by decide,
    claim_duration_invariant 1 1 _
      (Relation.ReflTransGen.single (Step.resetDur (Grid.new 1 1) 0 0)) 0 0
      (by decide)⟩

/-- C7 counterexample: the claim fails as stated.  On a 1×1 grid whose
dead cell was given duration 5 through the public `set_time`, `reset`
leaves the cell untouched (only alive cells are toggled), so after
`reset` its duration is still 5, not 0. -/
theorem claim_reset_cex :
    ((resetCexGrid.reset).1.cellAt 0 0).get_value = 0 ∧
    ((resetCexGrid.reset).1.cellAt 0 0).get_time ≠ 0 := by
  refine ⟨by decide, by decide⟩

/-- C7 amended: on any grid whose cells satisfy the data-model invariant
(binary value, and dead implies duration 0), after `reset` every cell has
value 0 and duration 0; on an already all-dead grid `reset` changes no
cell state and emits no change notification; and `reset` is idempotent. -/
theorem claim_reset (g : Grid) (hok : ∀ r c, CellOk (g.cellAt r c)) :
    (∀ r c, ((g.reset).1.cellAt r c).get_value = 0 ∧
      ((g.reset).1.cellAt r c).get_time = 0) ∧
    ((∀ r c, (g.cellAt r c).get_value = 0) → g.reset = (g, [])) ∧
    ((g.reset).1.reset = ((g.reset).1, [])) := by
  have hbin : ∀ r c, (g.cellAt r c).get_value ≤ 1 := fun r c => (hok r c).1
  refine ⟨fun r c => ⟨reset_value_zero hbin r c, reset_time_zero hok r c⟩,
    fun hdead => reset_of_dead (dead_members_of_cellAt hdead), ?_⟩
  exact reset_of_dead (dead_members_of_cellAt (reset_value_zero hbin))

theorem claim_reset_witness :
    (((((Grid.new 2 2).modifyCell 0 0 Cell.toggle_value).reset).1.cellAt 0 0
      ).get_value = 0) ∧
    (((((Grid.new 2 2).modifyCell 0 0 Cell.toggle_value).reset).1.cellAt 0 0
      ).get_time = 0) :=
  (claim_reset ((Grid.new 2 2).modifyCell 0 0 Cell.toggle_value)
    ((goodGrid_new 2 2).step (Step.toggle (Grid.new 2 2) 0 0)).2).1 0 0

/-- C8 counterexample: the claim fails as stated.  Python list indexing
wraps negative in-range indices instead of failing: on a 2×2 grid,
`get_cell(-1, 0)` succeeds and returns the cell at `(1, 0)`. -/
theorem claim_get_cell_cex :
    (Grid.new 2 2).get_cell (-1) 0 = some Cell.new ∧
    (Grid.new 2 2).get_cell (-1) 0 ≠ none := by
  refine ⟨by decide, by decide⟩

/-- C8 amended: on any well-formed grid, `get_cell(row, col)` returns
the unique stored cell for `row ∈ [0, rows)`, `col ∈ [0, cols)`; it
fails exactly when `row` is outside `[-rows, rows)` or `col` is outside
`[-cols, cols)`; and a negative in-range index wraps Python-style,
denoting `row + rows` (resp. `col + cols`). -/
theorem claim_get_cell (g : Grid) (hWF : g.WF) (row col : Int) :
    (0 ≤ row → row < (g.rows : Int) → 0 ≤ col → col < (g.cols : Int) →
      g.get_cell row col = some (g.cellAt row.toNat col.toNat)) ∧
    (g.get_cell row col = none ↔
      (row < -(g.rows : Int) ∨ (g.rows : Int) ≤ row ∨
        col < -(g.cols : Int) ∨ (g.cols : Int) ≤ col)) ∧
    (-(g.rows : Int) ≤ row → row < 0 →
      g.get_cell row col = g.get_cell (row + g.rows) col) ∧
    (-(g.cols : Int) ≤ col → col < 0 →
      g.get_cell row col = g.get_cell row (col + g.cols)) :=
  ⟨fun h1 h2 h3 h4 => get_cell_in_bounds hWF h1 h2 h3 h4,
    get_cell_none_iff hWF row col,
    fun h1 h2 => get_cell_neg_row hWF row col h1 h2,
    fun h1 h2 => get_cell_neg_col hWF row col h1 h2⟩

theorem claim_get_cell_witness :
    (Grid.new 2 2).WF ∧
    (Grid.new 2 2).get_cell 1 1 = some ((Grid.new 2 2).cellAt 1 1) :=
  ⟨by decide,
    (claim_get_cell (Grid.new 2 2) (by decide) 1 1).1 (by decide) (by decide)
      (by decide) (by decide)⟩

/-- C9: for every positive integer frame rate, `set_sleep(fps)` succeeds
and stores exactly `round(1 / fps, 3)` seconds (three-decimal rounding,
modelled over exact rationals with Python's banker's rounding), which
`get_sleep` then returns; in particular 30 fps gives `0.033` and 10 fps
gives `0.1`. -/
theorem claim_set_target_rate (g : Grid) (fps : Nat) (hpos : 0 < fps) :
    g.set_sleep fps = some { g with sleep := roundTo3 (1 / (fps : ℚ)) } ∧
    ({ g with sleep := roundTo3 (1 / (fps : ℚ)) } : Grid).get_sleep =
      roundTo3 (1 / (fps : ℚ)) ∧
    roundTo3 (1 / (30 : ℚ)) = 33 / 1000 ∧
    roundTo3 (1 / (10 : ℚ)) = 1 / 10 := by
  refine ⟨?_, rfl, ?_, ?_⟩
  · unfold set_sleep
    rw [if_neg (by omega)]
  · norm_num [roundTo3, pyRound]
  · norm_num [roundTo3, pyRound]

theorem claim_set_target_rate_witness :
    (0 < 30) ∧ roundTo3 (1 / (30 : ℚ)) = 33 / 1000 :=
  ⟨by decide, (claim_set_target_rate (Grid.new 1 1) 30 (by decide)).2.2.1⟩

/-- C10: `set_sleep(0)` divides by zero before any assignment, so the
call fails (modelled as `none`) and produces no grid with a changed tick
interval: the failed call leaves the original grid's interval as it
was. -/
theorem claim_set_sleep_zero (g : Grid) : g.set_sleep 0 = none := by
  unfold set_sleep
  rw [if_pos rfl]

end Grid
